import Mathlib

/-!
Shallow embedding of the resumable playlist-summarization pipeline.

Sources embedded here:
  - the state model (types/state.ts): ProcessStatus, SummaryState, ScreenshotState,
    VideoState, PlaylistState;
  - the state store (StateManager): save, updateSummaryStatus, updateScreenshotStatus,
    getPendingVideos, getStats, addNewVideos, initialize, sanitizeFilename;
  - the screenshot capturer (ScreenshotCapturer): formatTimestampForFilename,
    captureMultiple;
  - the per-item pipeline of Summarizer.summarizePlaylist: the capture stage with its
    set-difference retry, and the per-item try/catch boundary.

JavaScript objects keyed by video id preserve insertion order, so the videos mapping is
modelled as an association list.  File-system and network effects are modelled by
explicit state passing plus oracles describing the outcomes of external calls; the save
timestamp is an explicit `now` argument.
-/

inductive ProcessStatus where
  | pending
  | in_progress
  | completed
  | failed
deriving DecidableEq, Repr

structure SummaryState where
  status : ProcessStatus
  completedAt : Option String := none
  timestamps : Option (List String) := none
  error : Option String := none
deriving DecidableEq, Repr

structure ScreenshotState where
  status : ProcessStatus
  total : Nat
  completed : Nat
  files : List String
  error : Option String := none
deriving DecidableEq, Repr

structure VideoState where
  title : String
  outputDir : String
  summary : SummaryState
  screenshots : ScreenshotState
deriving DecidableEq, Repr

structure PlaylistConfig where
  locale : String
  withScreenshots : Bool
deriving DecidableEq, Repr

structure PlaylistState where
  playlistId : String
  playlistTitle : String
  config : PlaylistConfig
  totalVideos : Nat
  createdAt : String
  updatedAt : String
  videos : List (String × VideoState)
deriving DecidableEq, Repr

namespace StateManager

/-- One character of the forbidden class removed by sanitizeFilename. -/
def forbiddenChar (c : Char) : Bool :=
  c = '<' || c = '>' || c = ':' || c = '"' || c = '/' || c = '\\' || c = '|' || c = '?' || c = '*'

/-- Whitespace in the sense of the JavaScript regular-expression class. -/
def jsWhitespace (c : Char) : Bool :=
  c = ' ' || c = '\t' || c = '\n' || c = '\r' || c = '\x0b' || c = '\x0c'

/-- Collapse every run of whitespace into a single dash. -/
def collapseWs : List Char → List Char
  | [] => []
  | c :: rest =>
    if jsWhitespace c then '-' :: collapseWs (rest.dropWhile jsWhitespace)
    else c :: collapseWs rest
termination_by l => l.length
decreasing_by
  · simp only [List.length_cons]
    exact Nat.lt_succ_of_le (List.dropWhile_suffix _).length_le
  · simp

/-- StateManager.sanitizeFilename: strip forbidden characters, collapse whitespace to
dashes, lowercase, keep the first 50 characters. -/
def sanitizeFilename (filename : String) : String :=
  ⟨((collapseWs (filename.data.filter (fun c => !forbiddenChar c))).map Char.toLower).take 50⟩

/-- padStart(2, the zero character) on the decimal representation. -/
def padIndex (n : Nat) : String :=
  let s := toString n
  if s.length ≥ 2 then s else ⟨List.replicate (2 - s.length) '0' ++ s.data⟩

/-- The output-directory slug built from a one-based index and a title. -/
def mkOutputDir (idx : Nat) (title : String) : String :=
  padIndex idx ++ "-" ++ sanitizeFilename title

/-- The freshly tracked item record: both stages pending, capture counters zeroed. -/
def freshVideoState (idx : Nat) (title : String) : VideoState :=
  { title := title
    outputDir := mkOutputDir idx title
    summary := { status := .pending }
    screenshots := { status := .pending, total := 0, completed := 0, files := [] } }

/-- StateManager.save: rewrites the whole document, refreshing updatedAt. -/
def save (now : String) (s : PlaylistState) : PlaylistState :=
  { s with updatedAt := now }

/-- In-place mutation of one entry of the videos object. -/
def setVideo (vid : String) (f : VideoState → VideoState) (s : PlaylistState) : PlaylistState :=
  { s with videos := s.videos.map (fun p => if p.1 = vid then (p.1, f p.2) else p) }

/-- StateManager.updateSummaryStatus.  The completedAt spread fires only on completed;
the timestamps spread fires whenever timestamps are passed, and in that case the
screenshot total is overwritten with the length of the list. -/
def updateSummaryStatus (s : PlaylistState) (videoId : String) (status : ProcessStatus)
    (timestamps : Option (List String)) (error : Option String) (now : String) :
    PlaylistState :=
  if (s.videos.lookup videoId).isNone then s
  else
    let summary : SummaryState :=
      { status := status
        completedAt := if status = .completed then some now else none
        timestamps := timestamps
        error := error }
    let s1 := setVideo videoId (fun v => { v with summary := summary }) s
    let s2 :=
      match timestamps with
      | some ts =>
        setVideo videoId
          (fun v => { v with screenshots := { v.screenshots with total := ts.length } }) s1
      | none => s1
    save now s2

/-- StateManager.updateScreenshotStatus: replaces the capture sub-state, keeping the
stored total and overwriting count, files and error with the arguments. -/
def updateScreenshotStatus (s : PlaylistState) (videoId : String) (status : ProcessStatus)
    (completedCount : Nat) (files : List String) (error : Option String) (now : String) :
    PlaylistState :=
  if (s.videos.lookup videoId).isNone then s
  else
    save now (setVideo videoId
      (fun v =>
        { v with
          screenshots :=
            { status := status
              total := v.screenshots.total
              completed := completedCount
              files := files
              error := error } }) s)

/-- StateManager.getPendingVideos: ids of entries that are not done, in tracked order. -/
def getPendingVideos (s : PlaylistState) : List String :=
  (s.videos.filter (fun p =>
    !(decide (p.2.summary.status = ProcessStatus.completed) &&
      (!s.config.withScreenshots ||
        decide (p.2.screenshots.status = ProcessStatus.completed))))).map Prod.fst

inductive StatBucket where
  | completedB
  | inProgressB
  | failedB
  | pendingB
deriving DecidableEq, Repr

/-- The branch of the counting loop of getStats that one entry falls into. -/
def classifyVideo (withScreenshots : Bool) (v : VideoState) : StatBucket :=
  if v.summary.status = ProcessStatus.failed ∨ v.screenshots.status = ProcessStatus.failed then
    .failedB
  else if v.summary.status = ProcessStatus.completed ∧
      (¬withScreenshots = true ∨ v.screenshots.status = ProcessStatus.completed) then
    .completedB
  else if v.summary.status = ProcessStatus.in_progress ∨
      v.screenshots.status = ProcessStatus.in_progress then
    .inProgressB
  else
    .pendingB

structure Stats where
  total : Nat
  completed : Nat
  inProgress : Nat
  failed : Nat
  pending : Nat
deriving DecidableEq, Repr

/-- StateManager.getStats: count each entry into the bucket chosen by the if-chain and
report totalVideos as total. -/
def getStats (s : PlaylistState) : Stats :=
  { total := s.totalVideos
    completed := (s.videos.map Prod.snd).countP
      (fun v => decide (classifyVideo s.config.withScreenshots v = .completedB))
    inProgress := (s.videos.map Prod.snd).countP
      (fun v => decide (classifyVideo s.config.withScreenshots v = .inProgressB))
    failed := (s.videos.map Prod.snd).countP
      (fun v => decide (classifyVideo s.config.withScreenshots v = .failedB))
    pending := (s.videos.map Prod.snd).countP
      (fun v => decide (classifyVideo s.config.withScreenshots v = .pendingB)) }

/-- The loop body of StateManager.addNewVideos: existingCount is fixed before the loop,
newIds accumulates the ids actually added, and each added entry gets index
existingCount + newIds.length + 1. -/
def addVideosLoop (existingCount : Nat) (videos : List (String × VideoState))
    (newIds : List String) : List (String × String) → List (String × VideoState) × List String
  | [] => (videos, newIds)
  | v :: rest =>
    if (videos.lookup v.1).isSome then
      addVideosLoop existingCount videos newIds rest
    else
      let newIndex := existingCount + newIds.length + 1
      addVideosLoop existingCount (videos ++ [(v.1, freshVideoState newIndex v.2)])
        (newIds ++ [v.1]) rest

/-- StateManager.addNewVideos: add unseen incoming items, then recompute totalVideos and
save only when something was added. -/
def addNewVideos (s : PlaylistState) (videoList : List (String × String)) (now : String) :
    PlaylistState × List String :=
  let r := addVideosLoop s.videos.length s.videos [] videoList
  if 0 < r.2.length then
    (save now { s with videos := r.1, totalVideos := r.1.length }, r.2)
  else
    ({ s with videos := r.1 }, r.2)

/-- The document-creating method of StateManager (a fresh document, every item pending
with index i + 1). -/
def initState (playlistId playlistTitle : String) (config : PlaylistConfig)
    (videoList : List (String × String)) (now : String) : PlaylistState :=
  { playlistId := playlistId
    playlistTitle := playlistTitle
    config := config
    totalVideos := videoList.length
    createdAt := now
    updatedAt := now
    videos := videoList.enum.map (fun p => (p.2.1, freshVideoState (p.1 + 1) p.2.2)) }

end StateManager

namespace Screenshot

/-- ScreenshotCapturer.formatTimestampForFilename: replace every colon with a dash. -/
def formatTimestampForFilename (timestamp : String) : String :=
  ⟨timestamp.data.map (fun c => if c = ':' then '-' else c)⟩

/-- The character list of the literal ".png". -/
def pngSuffix : List Char := ['.', 'p', 'n', 'g']

/-- JavaScript String.replace with a plain-string pattern and empty replacement:
remove the first occurrence of the pattern, leave the string alone otherwise. -/
def dropFirstSub (pat : List Char) : List Char → List Char
  | [] => []
  | c :: rest =>
    if pat.isPrefixOf (c :: rest) then (c :: rest).drop pat.length
    else c :: dropFirstSub pat rest

/-- Whether pat occurs as a contiguous substring. -/
def hasSub (pat : List Char) : List Char → Bool
  | [] => pat.isPrefixOf ([] : List Char)
  | c :: rest => pat.isPrefixOf (c :: rest) || hasSub pat rest

/-- The inverse used by the capture retry logic in Summarizer.summarizePlaylist:
strip the first ".png" occurrence, then replace every dash with a colon. -/
def restoreTimestamp (fileName : String) : String :=
  ⟨(dropFirstSub pngSuffix fileName.data).map (fun c => if c = '-' then ':' else c)⟩

structure CaptureResult where
  timestamp : String
  filePath : String
  success : Bool
  error : Option String
deriving DecidableEq, Repr

/-- POSIX path join as used through the summarizer. -/
def joinPath (dir fileName : String) : String := dir ++ "/" ++ fileName

/-- ScreenshotCapturer.captureMultiple, with the per-timestamp success of the external
yt-dlp/ffmpeg invocation given by the oracle ok, and its failure message by errOf. -/
def captureMultiple (ok : String → Bool) (errOf : String → String) (outputDir : String)
    (timestamps : List String) : List CaptureResult :=
  timestamps.map (fun ts =>
    let fileName := formatTimestampForFilename ts ++ ".png"
    let outputPath := joinPath outputDir fileName
    if ok ts then
      { timestamp := ts, filePath := outputPath, success := true, error := none }
    else
      { timestamp := ts, filePath := outputPath, success := false, error := some (errOf ts) })

/-- JavaScript String.split on a single separator character. -/
def splitChar (sep : Char) : List Char → List (List Char)
  | [] => [[]]
  | c :: rest =>
    match splitChar sep rest with
    | [] => []
    | seg :: segs => if c = sep then [] :: seg :: segs else (c :: seg) :: segs

/-- filePath.split on slash followed by pop: the last path segment. -/
def baseName (path : String) : String :=
  ⟨(splitChar '/' path.data).getLastD []⟩

end Screenshot

namespace Summarizer

open StateManager Screenshot

/-- The capture step of Summarizer.summarizePlaylist for one item, lines 204 to 266 of
the source: compute the timestamps still missing by inverting the filename rule on the
existing files, capture only those, and merge the newly succeeded files onto the
existing list.  The intermediate in_progress write is part of the step; vs is the item
record as looked up at the start of the per-item pipeline (only its screenshot file
list is read here, which no summary-stage write touches).  Returns the updated document
and the list of timestamps actually requested from the capturer. -/
def runCaptureStage (withScreenshots : Bool) (ok : String → Bool) (errOf : String → String)
    (outputDir : String) (screenshotTimestamps : List String) (vs : VideoState)
    (s : PlaylistState) (vid : String) (now : String) : PlaylistState × List String :=
  let existingFiles := vs.screenshots.files
  let existingTimestamps := existingFiles.map restoreTimestamp
  let pendingTimestamps :=
    screenshotTimestamps.filter (fun ts => !(existingTimestamps.contains ts))
  if withScreenshots && decide (0 < pendingTimestamps.length) then
    let s1 := updateScreenshotStatus s vid .in_progress existingFiles.length existingFiles
      none now
    let results := captureMultiple ok errOf (joinPath outputDir "screenshots")
      pendingTimestamps
    let newSuccessfulFiles := (results.filter (fun r => r.success)).map
      (fun r => baseName r.filePath)
    let allSuccessfulFiles := existingFiles ++ newSuccessfulFiles
    let failedResults := results.filter (fun r => !r.success)
    if 0 < failedResults.length then
      let errors := String.intercalate "; " (failedResults.map (fun r => r.error.getD ""))
      (updateScreenshotStatus s1 vid .failed allSuccessfulFiles.length allSuccessfulFiles
        (some errors) now, pendingTimestamps)
    else
      (updateScreenshotStatus s1 vid .completed allSuccessfulFiles.length allSuccessfulFiles
        none now, pendingTimestamps)
  else
    (s, [])

/-- Outcomes of the external calls made while processing one item: the summarization
call either yields (timestamps, screenshotTimestamps) or raises, and an exception may
also be raised between the summary step and the capture step (for example by a
callback or a file-system write); the capture collaborator itself reports per-timestamp
success through ok and never raises. -/
structure VideoEnv where
  summarizeResult : Except String (List String × List String)
  captureThrow : Option String
  captureOk : String → Bool
  captureErr : String → String

/-- The try-block body of processVideo in Summarizer.summarizePlaylist.  An error value
carries the raised message together with the document as it stood when the exception
was raised, which is what the catch handler observes. -/
def tryBody (env : VideoEnv) (withScreenshots : Bool) (outputDir now : String)
    (s : PlaylistState) (vid : String) (vs : VideoState) :
    Except (String × PlaylistState) PlaylistState :=
  let step1 : Except (String × PlaylistState) (PlaylistState × List String) :=
    if vs.summary.status ≠ ProcessStatus.completed then
      let s1 := updateSummaryStatus s vid .in_progress none none now
      match env.summarizeResult with
      | .error m => .error (m, s1)
      | .ok (tss, scrTss) =>
        .ok (updateSummaryStatus s1 vid .completed (some tss) none now, scrTss)
    else
      let tss := vs.summary.timestamps.getD []
      .ok (s, tss)
  match step1 with
  | .error e => .error e
  | .ok (s2, scrTss) =>
    match env.captureThrow with
    | some m => .error (m, s2)
    | none =>
      .ok (runCaptureStage withScreenshots env.captureOk env.captureErr outputDir scrTss vs
        s2 vid now).1

/-- processVideo of Summarizer.summarizePlaylist: run the two stages inside a try/catch;
the catch records the failure into the summary stage when the summary is not yet
completed and into the capture stage otherwise, preserving the capture count and file
list the document holds at catch time. -/
def processVideo (env : VideoEnv) (withScreenshots : Bool) (outputDir now : String)
    (s : PlaylistState) (vid : String) : PlaylistState :=
  match s.videos.lookup vid with
  | none => s
  | some vs =>
    match tryBody env withScreenshots outputDir now s vid vs with
    | .ok sFinal => sFinal
    | .error (m, sAtThrow) =>
      match sAtThrow.videos.lookup vid with
      | none => sAtThrow
      | some cvs =>
        if cvs.summary.status ≠ ProcessStatus.completed then
          updateSummaryStatus sAtThrow vid .failed none (some m) now
        else
          updateScreenshotStatus sAtThrow vid .failed cvs.screenshots.completed
            cvs.screenshots.files (some m) now

/-- The sequential scheduling path of Summarizer.summarizePlaylist (concurrency at most
one): process every pending id in order, threading the document through. -/
def runPending (envOf : String → VideoEnv) (withScreenshots : Bool)
    (dirOf : String → String) (now : String) :
    PlaylistState → List String → PlaylistState
  | s, [] => s
  | s, vid :: rest =>
    runPending envOf withScreenshots dirOf now
      (processVideo (envOf vid) withScreenshots (dirOf vid) now s vid) rest

end Summarizer

namespace Spec

/-- The derived done classification exactly as the specification words it: an item is
done iff Summarize is completed and (the capture stage is disabled by configuration or
Capture is completed).  Stated from the specification for refinement comparison with
the source-level pending filter. -/
def specDone (withScreenshots : Bool) (v : VideoState) : Bool :=
  decide (v.summary.status = ProcessStatus.completed) &&
    (!withScreenshots || decide (v.screenshots.status = ProcessStatus.completed))

end Spec

namespace Ex

/-!  Concrete documents used to evaluate the verified statements on the examples the
specification itself gives. -/

/-- An item with both stages completed. -/
def doneVS : VideoState :=
  { title := "A", outputDir := "01-a",
    summary := { status := .completed, completedAt := some "t0",
                 timestamps := some ["00:01:00"] },
    screenshots := { status := .completed, total := 1, completed := 1,
                     files := ["00-01-00.png"] } }

/-- An item whose summary stage failed. -/
def failedVS : VideoState :=
  { title := "B", outputDir := "02-b",
    summary := { status := .failed, error := some "boom" },
    screenshots := { status := .pending, total := 0, completed := 0, files := [] } }

/-- An untouched pending item. -/
def pendingVS : VideoState :=
  { title := "C", outputDir := "03-c",
    summary := { status := .pending },
    screenshots := { status := .pending, total := 0, completed := 0, files := [] } }

/-- The three-item example document of the specification: one done, one failed, one
pending, captures enabled. -/
def tripleState : PlaylistState :=
  { playlistId := "pl", playlistTitle := "PL",
    config := { locale := "ko", withScreenshots := true },
    totalVideos := 3, createdAt := "t0", updatedAt := "t0",
    videos := [("A", doneVS), ("B", failedVS), ("C", pendingVS)] }

/-- The partial-capture example item: three declared timestamps, two captures already
produced, the stage left failed by the previous run. -/
def mergeVS : VideoState :=
  { title := "M", outputDir := "01-m",
    summary := { status := .completed, completedAt := some "t0",
                 timestamps := some ["00:01:00", "00:05:00", "00:10:00"] },
    screenshots := { status := .failed, total := 3, completed := 2,
                     files := ["00-01-00.png", "00-05-00.png"], error := some "e" } }

def mergeState : PlaylistState :=
  { playlistId := "pl", playlistTitle := "PL",
    config := { locale := "ko", withScreenshots := true },
    totalVideos := 1, createdAt := "t0", updatedAt := "t0",
    videos := [("M", mergeVS)] }

/-- An item whose declared timestamps are all already produced while the capture stage
is still marked pending. -/
def skipVS : VideoState :=
  { title := "S", outputDir := "01-s",
    summary := { status := .completed, completedAt := some "t0",
                 timestamps := some ["00:10:00"] },
    screenshots := { status := .pending, total := 1, completed := 1,
                     files := ["00-10-00.png"] } }

def skipState : PlaylistState :=
  { playlistId := "pl", playlistTitle := "PL",
    config := { locale := "ko", withScreenshots := true },
    totalVideos := 1, createdAt := "t0", updatedAt := "t0",
    videos := [("S", skipVS)] }

/-- An item with a capture total already seeded to 5 and a summary retry incoming. -/
def seededVS : VideoState :=
  { title := "D", outputDir := "01-d",
    summary := { status := .pending },
    screenshots := { status := .in_progress, total := 5, completed := 2,
                     files := ["00-01-00.png", "00-02-00.png"] } }

def seededState : PlaylistState :=
  { playlistId := "pl", playlistTitle := "PL",
    config := { locale := "ko", withScreenshots := true },
    totalVideos := 1, createdAt := "t0", updatedAt := "t0",
    videos := [("D", seededVS)] }

/-- Captures disabled by configuration, summary completed, capture stage failed. -/
def disabledVS : VideoState :=
  { title := "E", outputDir := "01-e",
    summary := { status := .completed, completedAt := some "t0",
                 timestamps := some [] },
    screenshots := { status := .failed, total := 0, completed := 0, files := [],
                     error := some "cb" } }

def disabledState : PlaylistState :=
  { playlistId := "pl", playlistTitle := "PL",
    config := { locale := "ko", withScreenshots := false },
    totalVideos := 1, createdAt := "t0", updatedAt := "t0",
    videos := [("E", disabledVS)] }

/-- A two-item document of fresh pending items. -/
def twoState : PlaylistState :=
  { playlistId := "pl", playlistTitle := "PL",
    config := { locale := "ko", withScreenshots := true },
    totalVideos := 2, createdAt := "t0", updatedAt := "t0",
    videos := [("a", StateManager.freshVideoState 1 "A"),
               ("b", StateManager.freshVideoState 2 "B")] }

/-- An environment whose summarize call raises. -/
def envBoom : Summarizer.VideoEnv :=
  { summarizeResult := .error "boom"
    captureThrow := none
    captureOk := fun _ => true
    captureErr := fun _ => "" }

end Ex

open StateManager Screenshot Summarizer Spec

/-! ## Association-list and store lemmas -/

theorem lookup_cons_eq {β : Type} (k : String) (v : β) (l : List (String × β)) (a : String) :
    List.lookup a ((k, v) :: l) = if a = k then some v else List.lookup a l := by
  simp only [List.lookup]
  split <;> simp_all

theorem lookup_append_some {β : Type} {l1 : List (String × β)} (l2 : List (String × β))
    {a : String} {v : β} (h : l1.lookup a = some v) : (l1 ++ l2).lookup a = some v := by
  induction l1 with
  | nil => simp [List.lookup] at h
  | cons p rest ih =>
    obtain ⟨k, w⟩ := p
    rw [List.cons_append, lookup_cons_eq]
    rw [lookup_cons_eq] at h
    by_cases hak : a = k
    · rw [if_pos hak] at h ⊢
      exact h
    · rw [if_neg hak] at h ⊢
      exact ih h

theorem lookup_append_none {β : Type} {l1 l2 : List (String × β)} {a : String}
    (h : (l1 ++ l2).lookup a = none) : l1.lookup a = none := by
  induction l1 with
  | nil => simp [List.lookup]
  | cons p rest ih =>
    obtain ⟨k, w⟩ := p
    rw [List.cons_append, lookup_cons_eq] at h
    rw [lookup_cons_eq]
    by_cases hak : a = k
    · rw [if_pos hak] at h
      exact absurd h (by simp)
    · rw [if_neg hak] at h ⊢
      exact ih h

theorem lookup_setVideo (vid j : String) (f : VideoState → VideoState) (s : PlaylistState) :
    (setVideo vid f s).videos.lookup j =
      if j = vid then (s.videos.lookup j).map f else s.videos.lookup j := by
  show (s.videos.map _).lookup j = _
  induction s.videos with
  | nil => by_cases h : j = vid <;> simp [List.lookup, h]
  | cons p rest ih =>
    obtain ⟨k, w⟩ := p
    simp only [List.map_cons]
    by_cases hk : k = vid
    · subst hk
      rw [if_pos rfl, lookup_cons_eq]
      by_cases hj : j = k
      · rw [if_pos hj, if_pos hj, lookup_cons_eq, if_pos hj]
        rfl
      · rw [if_neg hj, if_neg hj, lookup_cons_eq, if_neg hj, ih, if_neg hj]
    · rw [if_neg hk, lookup_cons_eq]
      by_cases hj : j = k
      · have hjv : ¬j = vid := fun h => hk (hj ▸ h)
        rw [if_pos hj, if_neg hjv, lookup_cons_eq, if_pos hj]
      · rw [if_neg hj, ih, lookup_cons_eq, if_neg hj]

theorem setVideo_videos_lookup_isNone (vid j : String) (f : VideoState → VideoState)
    (s : PlaylistState) :
    ((setVideo vid f s).videos.lookup j).isNone = (s.videos.lookup j).isNone := by
  rw [lookup_setVideo]
  by_cases h : j = vid
  · rw [if_pos h]
    cases s.videos.lookup j <;> simp
  · rw [if_neg h]

theorem save_videos (now : String) (s : PlaylistState) : (save now s).videos = s.videos := rfl

/-- Full effect of updateSummaryStatus on the tracked entry. -/
theorem lookup_updateSummaryStatus_self (s : PlaylistState) (vid : String)
    (st : ProcessStatus) (tss : Option (List String)) (err : Option String) (now : String)
    (vs : VideoState) (hvs : s.videos.lookup vid = some vs) :
    (updateSummaryStatus s vid st tss err now).videos.lookup vid =
      some { vs with
             summary := { status := st
                          completedAt := if st = .completed then some now else none
                          timestamps := tss
                          error := err }
             screenshots := { vs.screenshots with
                              total := match tss with
                                       | some l => l.length
                                       | none => vs.screenshots.total } } := by
  cases tss with
  | none =>
    have hu : updateSummaryStatus s vid st none err now =
        save now (setVideo vid (fun v =>
          { v with summary :=
              { status := st
                completedAt := if st = .completed then some now else none
                timestamps := none
                error := err } }) s) := by
      unfold updateSummaryStatus
      rw [if_neg (by simp [hvs])]
    rw [hu, save_videos, lookup_setVideo, if_pos rfl, hvs]
    rfl
  | some l =>
    have hu : updateSummaryStatus s vid st (some l) err now =
        save now (setVideo vid (fun v =>
            { v with screenshots := { v.screenshots with total := l.length } })
          (setVideo vid (fun v =>
            { v with summary :=
                { status := st
                  completedAt := if st = .completed then some now else none
                  timestamps := some l
                  error := err } }) s)) := by
      unfold updateSummaryStatus
      rw [if_neg (by simp [hvs])]
    rw [hu, save_videos, lookup_setVideo, if_pos rfl, lookup_setVideo, if_pos rfl, hvs]
    rfl

theorem lookup_updateSummaryStatus_ne (s : PlaylistState) (vid : String)
    (st : ProcessStatus) (tss : Option (List String)) (err : Option String) (now : String)
    (j : String) (hj : j ≠ vid) :
    (updateSummaryStatus s vid st tss err now).videos.lookup j = s.videos.lookup j := by
  by_cases h : (s.videos.lookup vid).isNone = true
  · unfold updateSummaryStatus
    rw [if_pos h]
  · cases tss with
    | none =>
      have hu : updateSummaryStatus s vid st none err now =
          save now (setVideo vid (fun v =>
            { v with summary :=
                { status := st
                  completedAt := if st = .completed then some now else none
                  timestamps := none
                  error := err } }) s) := by
        unfold updateSummaryStatus
        rw [if_neg h]
      rw [hu, save_videos, lookup_setVideo, if_neg hj]
    | some l =>
      have hu : updateSummaryStatus s vid st (some l) err now =
          save now (setVideo vid (fun v =>
              { v with screenshots := { v.screenshots with total := l.length } })
            (setVideo vid (fun v =>
              { v with summary :=
                  { status := st
                    completedAt := if st = .completed then some now else none
                    timestamps := some l
                    error := err } }) s)) := by
        unfold updateSummaryStatus
        rw [if_neg h]
      rw [hu, save_videos, lookup_setVideo, if_neg hj, lookup_setVideo, if_neg hj]

theorem updateSummaryStatus_untracked (s : PlaylistState) (vid : String)
    (st : ProcessStatus) (tss : Option (List String)) (err : Option String) (now : String)
    (h : s.videos.lookup vid = none) :
    updateSummaryStatus s vid st tss err now = s := by
  unfold updateSummaryStatus
  rw [if_pos (by simp [h])]

/-- Full effect of updateScreenshotStatus on the tracked entry. -/
theorem lookup_updateScreenshotStatus_self (s : PlaylistState) (vid : String)
    (st : ProcessStatus) (cnt : Nat) (files : List String) (err : Option String)
    (now : String) (vs : VideoState) (hvs : s.videos.lookup vid = some vs) :
    (updateScreenshotStatus s vid st cnt files err now).videos.lookup vid =
      some { vs with
             screenshots := { status := st
                              total := vs.screenshots.total
                              completed := cnt
                              files := files
                              error := err } } := by
  have hu : updateScreenshotStatus s vid st cnt files err now =
      save now (setVideo vid (fun v =>
        { v with screenshots :=
            { status := st
              total := v.screenshots.total
              completed := cnt
              files := files
              error := err } }) s) := by
    unfold updateScreenshotStatus
    rw [if_neg (by simp [hvs])]
  rw [hu, save_videos, lookup_setVideo, if_pos rfl, hvs]
  rfl

theorem lookup_updateScreenshotStatus_ne (s : PlaylistState) (vid : String)
    (st : ProcessStatus) (cnt : Nat) (files : List String) (err : Option String)
    (now : String) (j : String) (hj : j ≠ vid) :
    (updateScreenshotStatus s vid st cnt files err now).videos.lookup j =
      s.videos.lookup j := by
  by_cases h : (s.videos.lookup vid).isNone = true
  · unfold updateScreenshotStatus
    rw [if_pos h]
  · have hu : updateScreenshotStatus s vid st cnt files err now =
        save now (setVideo vid (fun v =>
          { v with screenshots :=
              { status := st
                total := v.screenshots.total
                completed := cnt
                files := files
                error := err } }) s) := by
      unfold updateScreenshotStatus
      rw [if_neg h]
    rw [hu, save_videos, lookup_setVideo, if_neg hj]

/-! ## Stats partition lemmas -/

theorem countP_classify_partition (ws : Bool) (l : List VideoState) :
    l.countP (fun v => decide (classifyVideo ws v = .completedB)) +
      l.countP (fun v => decide (classifyVideo ws v = .inProgressB)) +
      l.countP (fun v => decide (classifyVideo ws v = .failedB)) +
      l.countP (fun v => decide (classifyVideo ws v = .pendingB)) = l.length := by
  induction l with
  | nil => simp
  | cons v rest ih =>
    rcases h : classifyVideo ws v <;>
      simp only [List.countP_cons, h, List.length_cons] <;>
      simp <;> omega

/-! ## Reconciliation loop lemmas -/

theorem lookup_append_right {β : Type} {l1 : List (String × β)} (l2 : List (String × β))
    {a : String} (h : l1.lookup a = none) : (l1 ++ l2).lookup a = l2.lookup a := by
  induction l1 with
  | nil => simp
  | cons p rest ih =>
    obtain ⟨k, w⟩ := p
    rw [lookup_cons_eq] at h
    rw [List.cons_append, lookup_cons_eq]
    by_cases hak : a = k
    · rw [if_pos hak] at h
      exact absurd h (by simp)
    · rw [if_neg hak] at h
      rw [if_neg hak]
      exact ih h

/-- Complete characterization of one run of the addNewVideos loop: the videos list only
grows at the end, ids of the added entries are returned in order, every added entry is a
fresh pending record carrying the next sequential index, and every added id was absent
from the list the loop started from. -/
theorem addVideosLoop_cons (c : Nat) (videos : List (String × VideoState)) (ids : List String)
    (v : String × String) (rest : List (String × String)) :
    addVideosLoop c videos ids (v :: rest) =
      if (videos.lookup v.1).isSome then addVideosLoop c videos ids rest
      else
        addVideosLoop c (videos ++ [(v.1, freshVideoState (c + ids.length + 1) v.2)])
          (ids ++ [v.1]) rest := rfl

theorem addVideosLoop_spec (c : Nat) :
    ∀ (l : List (String × String)) (videos : List (String × VideoState)) (ids : List String),
      ∃ added : List (String × VideoState),
        (addVideosLoop c videos ids l).1 = videos ++ added ∧
        (addVideosLoop c videos ids l).2 = ids ++ added.map Prod.fst ∧
        (∀ k (hk : k < added.length),
          (added.get ⟨k, hk⟩).2 =
            freshVideoState (c + ids.length + k + 1) ((added.get ⟨k, hk⟩).2.title)) ∧
        (∀ p ∈ added, videos.lookup p.1 = none) := by
  intro l
  induction l with
  | nil =>
    intro videos ids
    refine ⟨[], by simp [addVideosLoop], by simp [addVideosLoop], ?_, by simp⟩
    intro k hk
    exact absurd hk (by simp)
  | cons v rest ih =>
    intro videos ids
    by_cases hmem : (videos.lookup v.1).isSome
    · obtain ⟨added, h1, h2, h3, h4⟩ := ih videos ids
      have hstep : addVideosLoop c videos ids (v :: rest) = addVideosLoop c videos ids rest := by
        rw [addVideosLoop_cons, if_pos hmem]
      exact ⟨added, by rw [hstep]; exact h1, by rw [hstep]; exact h2, h3, h4⟩
    · have hnone : videos.lookup v.1 = none := by
        cases h : videos.lookup v.1
        · rfl
        · rw [h] at hmem
          exact absurd rfl hmem
      obtain ⟨added, h1, h2, h3, h4⟩ :=
        ih (videos ++ [(v.1, freshVideoState (c + ids.length + 1) v.2)]) (ids ++ [v.1])
      have hstep : addVideosLoop c videos ids (v :: rest) =
          addVideosLoop c (videos ++ [(v.1, freshVideoState (c + ids.length + 1) v.2)])
            (ids ++ [v.1]) rest := by
        rw [addVideosLoop_cons, if_neg (by simp [hmem])]
      refine ⟨(v.1, freshVideoState (c + ids.length + 1) v.2) :: added, ?_, ?_, ?_, ?_⟩
      · rw [hstep, h1, List.append_assoc]
        rfl
      · rw [hstep, h2, List.append_assoc]
        rfl
      · intro k hk
        cases k with
        | zero => rfl
        | succ k0 =>
          have hk0 : k0 < added.length := by
            simpa using Nat.lt_of_succ_lt_succ (by simpa using hk)
          have h := h3 k0 hk0
          have harith : c + (ids ++ [v.1]).length + k0 + 1 = c + ids.length + (k0 + 1) + 1 := by
            simp [List.length_append]
            omega
          rw [harith] at h
          simpa using h
      · intro p hp
        rcases List.mem_cons.mp hp with h | h
        · rw [h]
          exact hnone
        · exact lookup_append_none (h4 p h)

theorem addVideosLoop_noop (c : Nat) :
    ∀ (l : List (String × String)) (videos : List (String × VideoState)) (ids : List String),
      (∀ v ∈ l, (videos.lookup v.1).isSome) →
      addVideosLoop c videos ids l = (videos, ids) := by
  intro l
  induction l with
  | nil =>
    intro videos ids _
    rfl
  | cons v rest ih =>
    intro videos ids h
    have hstep : addVideosLoop c videos ids (v :: rest) = addVideosLoop c videos ids rest := by
      rw [addVideosLoop_cons, if_pos (h v (List.mem_cons_self v rest))]
    rw [hstep]
    exact ih videos ids (fun w hw => h w (List.mem_cons_of_mem v hw))

theorem addVideosLoop_covers (c : Nat) :
    ∀ (l : List (String × String)) (videos : List (String × VideoState)) (ids : List String),
      ∀ v ∈ l, ((addVideosLoop c videos ids l).1.lookup v.1).isSome := by
  intro l
  induction l with
  | nil =>
    intro videos ids v hv
    exact absurd hv (by simp)
  | cons w rest ih =>
    intro videos ids v hv
    have hpersist : ∀ (videos2 : List (String × VideoState)) (ids2 : List String) (j : String),
        ((videos2.lookup j).isSome = true) →
        ((addVideosLoop c videos2 ids2 rest).1.lookup j).isSome := by
      intro videos2 ids2 j h
      obtain ⟨added, h1, _, _, _⟩ := addVideosLoop_spec c rest videos2 ids2
      rw [h1]
      obtain ⟨x, hx⟩ := Option.isSome_iff_exists.mp h
      rw [lookup_append_some added hx]
      rfl
    by_cases hmem : (videos.lookup w.1).isSome
    · have hstep : addVideosLoop c videos ids (w :: rest) = addVideosLoop c videos ids rest := by
        rw [addVideosLoop_cons, if_pos hmem]
      rw [hstep]
      rcases List.mem_cons.mp hv with h | h
      · rw [h]
        exact hpersist videos ids w.1 hmem
      · exact ih videos ids v h
    · have hnone : videos.lookup w.1 = none := by
        cases h : videos.lookup w.1
        · rfl
        · rw [h] at hmem
          exact absurd rfl hmem
      have hstep : addVideosLoop c videos ids (w :: rest) =
          addVideosLoop c (videos ++ [(w.1, freshVideoState (c + ids.length + 1) w.2)])
            (ids ++ [w.1]) rest := by
        rw [addVideosLoop_cons, if_neg (by simp [hmem])]
      rw [hstep]
      rcases List.mem_cons.mp hv with h | h
      · rw [h]
        refine hpersist _ _ w.1 ?_
        rw [lookup_append_right _ hnone, lookup_cons_eq, if_pos rfl]
        rfl
      · exact ih _ _ v h

theorem addNewVideos_videos (s : PlaylistState) (vl : List (String × String)) (now : String) :
    (addNewVideos s vl now).1.videos = (addVideosLoop s.videos.length s.videos [] vl).1 := by
  by_cases h : 0 < (addVideosLoop s.videos.length s.videos [] vl).2.length
  · show ((if 0 < (addVideosLoop s.videos.length s.videos [] vl).2.length then _ else _ :
        PlaylistState × List String)).1.videos = _
    rw [if_pos h]
    rfl
  · show ((if 0 < (addVideosLoop s.videos.length s.videos [] vl).2.length then _ else _ :
        PlaylistState × List String)).1.videos = _
    rw [if_neg h]

/-! ## Timestamp/filename round-trip lemmas -/

theorem beq_colonSwap (c t : Char) (h1 : t ≠ ':') (h2 : t ≠ '-') :
    (t == (if c = ':' then '-' else c)) = (t == c) := by
  by_cases hc : c = ':'
  · subst hc
    rw [if_pos rfl]
    simp [h1, h2]
  · rw [if_neg hc]

theorem png_isPrefixOf_map (l : List Char) :
    pngSuffix.isPrefixOf (l.map (fun c => if c = ':' then '-' else c)) =
      pngSuffix.isPrefixOf l := by
  rcases l with _ | ⟨a, _ | ⟨b, _ | ⟨c, _ | ⟨d, rest⟩⟩⟩⟩
  · rfl
  · simp only [pngSuffix, List.map_cons, List.map_nil, List.isPrefixOf]
    rw [beq_colonSwap a '.' (by decide) (by decide)]
  · simp only [pngSuffix, List.map_cons, List.map_nil, List.isPrefixOf]
    rw [beq_colonSwap a '.' (by decide) (by decide),
      beq_colonSwap b 'p' (by decide) (by decide)]
  · simp only [pngSuffix, List.map_cons, List.map_nil, List.isPrefixOf]
    rw [beq_colonSwap a '.' (by decide) (by decide),
      beq_colonSwap b 'p' (by decide) (by decide),
      beq_colonSwap c 'n' (by decide) (by decide)]
  · simp only [pngSuffix, List.map_cons, List.isPrefixOf]
    rw [beq_colonSwap a '.' (by decide) (by decide),
      beq_colonSwap b 'p' (by decide) (by decide),
      beq_colonSwap c 'n' (by decide) (by decide),
      beq_colonSwap d 'g' (by decide) (by decide)]

theorem hasSub_png_map (l : List Char) :
    hasSub pngSuffix (l.map (fun c => if c = ':' then '-' else c)) = hasSub pngSuffix l := by
  induction l with
  | nil => rfl
  | cons a rest ih =>
    have hpre := png_isPrefixOf_map (a :: rest)
    simp only [List.map_cons] at hpre
    simp only [List.map_cons, hasSub, hpre, ih]

theorem png_not_isPrefixOf_append (c : Char) (rest : List Char)
    (h : pngSuffix.isPrefixOf (c :: rest) = false) :
    pngSuffix.isPrefixOf (c :: (rest ++ pngSuffix)) = false := by
  rcases rest with _ | ⟨b, _ | ⟨d, _ | ⟨e, tail⟩⟩⟩
  · simp [pngSuffix, List.isPrefixOf]
  · simp [pngSuffix, List.isPrefixOf]
  · simp [pngSuffix, List.isPrefixOf]
  · simp only [pngSuffix, List.cons_append, List.isPrefixOf] at h ⊢
    simpa using h

theorem dropFirstSub_png_append (l : List Char) (h : hasSub pngSuffix l = false) :
    dropFirstSub pngSuffix (l ++ pngSuffix) = l := by
  induction l with
  | nil => rfl
  | cons c rest ih =>
    simp only [hasSub, Bool.or_eq_false_iff] at h
    obtain ⟨h1, h2⟩ := h
    have hnp := png_not_isPrefixOf_append c rest h1
    simp only [List.cons_append, dropFirstSub]
    rw [if_neg (by simp [hnp])]
    show c :: dropFirstSub pngSuffix (rest ++ pngSuffix) = c :: rest
    rw [ih h2]

theorem map_dash_colon_cancel (l : List Char) (h : ¬ '-' ∈ l) :
    (l.map (fun c => if c = ':' then '-' else c)).map (fun c => if c = '-' then ':' else c)
      = l := by
  induction l with
  | nil => rfl
  | cons c rest ih =>
    have hc : ¬ c = '-' := fun hx => h (hx ▸ List.mem_cons_self c rest)
    have hrest : ¬ '-' ∈ rest := fun hx => h (List.mem_cons_of_mem c hx)
    simp only [List.map_cons, ih hrest, List.cons.injEq, and_true]
    by_cases hcc : c = ':'
    · rw [if_pos hcc, if_pos rfl, hcc]
    · rw [if_neg hcc, if_neg hc]

theorem no_dash_after_restore (fileName : String) :
    ¬ '-' ∈ (restoreTimestamp fileName).data := by
  intro hmem
  unfold restoreTimestamp at hmem
  simp only [List.mem_map] at hmem
  obtain ⟨c, _, hc⟩ := hmem
  by_cases h : c = '-'
  · rw [if_pos h] at hc
    exact absurd hc (by decide)
  · rw [if_neg h] at hc
    exact h hc

theorem restore_format_roundtrip (ts : String) (hd : ¬ '-' ∈ ts.data)
    (hp : hasSub pngSuffix ts.data = false) :
    restoreTimestamp (formatTimestampForFilename ts ++ ".png") = ts := by
  have hdata : (formatTimestampForFilename ts ++ ".png").data =
      ts.data.map (fun c => if c = ':' then '-' else c) ++ pngSuffix := rfl
  unfold restoreTimestamp
  rw [hdata, dropFirstSub_png_append _ (by rw [hasSub_png_map]; exact hp),
    map_dash_colon_cancel _ hd]

theorem format_timestamp_inj (a b : String) (ha : ¬ '-' ∈ a.data) (hb : ¬ '-' ∈ b.data)
    (h : formatTimestampForFilename a = formatTimestampForFilename b) : a = b := by
  have hdat := congrArg String.data h
  have hdat2 : a.data.map (fun c => if c = ':' then '-' else c) =
      b.data.map (fun c => if c = ':' then '-' else c) := hdat
  have := congrArg (List.map (fun c => if c = '-' then ':' else c)) hdat2
  rw [map_dash_colon_cancel _ ha, map_dash_colon_cancel _ hb] at this
  exact congrArg String.mk this

/-! ## Path split lemmas -/

theorem splitChar_ne_nil (sep : Char) : ∀ l : List Char, splitChar sep l ≠ [] := by
  intro l
  induction l with
  | nil => simp [splitChar]
  | cons c rest ih =>
    rcases h : splitChar sep rest with _ | ⟨seg, segs⟩
    · exact absurd h ih
    · simp only [splitChar, h]
      by_cases hc : c = sep
      · rw [if_pos hc]
        simp
      · rw [if_neg hc]
        simp

theorem splitChar_append_sep (sep : Char) (f : List Char) :
    ∀ l : List Char, splitChar sep (l ++ sep :: f) = splitChar sep l ++ splitChar sep f := by
  intro l
  induction l with
  | nil =>
    rcases h : splitChar sep f with _ | ⟨seg, segs⟩
    · exact absurd h (splitChar_ne_nil sep f)
    · simp only [List.nil_append, splitChar, h, if_pos rfl]
      rfl
  | cons c rest ih =>
    rcases h : splitChar sep (rest ++ sep :: f) with _ | ⟨seg, segs⟩
    · exact absurd h (splitChar_ne_nil _ _)
    · rcases h2 : splitChar sep rest with _ | ⟨seg2, segs2⟩
      · exact absurd h2 (splitChar_ne_nil _ _)
      · rw [h, h2] at ih
        have hseg : seg = seg2 ∧ segs = segs2 ++ splitChar sep f := by
          have hcons : seg :: segs = seg2 :: (segs2 ++ splitChar sep f) := by simpa using ih
          exact ⟨by injection hcons, by injection hcons⟩
        obtain ⟨hs1, hs2⟩ := hseg
        have hstep : splitChar sep ((c :: rest) ++ sep :: f) =
            match splitChar sep (rest ++ sep :: f) with
            | [] => []
            | seg :: segs => if c = sep then [] :: seg :: segs else (c :: seg) :: segs := rfl
        have hstep2 : splitChar sep (c :: rest) =
            match splitChar sep rest with
            | [] => []
            | seg :: segs => if c = sep then [] :: seg :: segs else (c :: seg) :: segs := rfl
        rw [hstep, h, hstep2, h2]
        show (if c = sep then [] :: seg :: segs else (c :: seg) :: segs) =
          (if c = sep then [] :: seg2 :: segs2 else (c :: seg2) :: segs2) ++ splitChar sep f
        by_cases hc : c = sep
        · rw [if_pos hc, if_pos hc]
          simp [hs1, hs2]
        · rw [if_neg hc, if_neg hc]
          simp [hs1, hs2]

theorem splitChar_no_sep (sep : Char) : ∀ l : List Char, ¬ sep ∈ l → splitChar sep l = [l] := by
  intro l
  induction l with
  | nil => intro _; rfl
  | cons c rest ih =>
    intro h
    have hc : ¬ c = sep := fun hx => h (hx ▸ List.mem_cons_self c rest)
    have hrest : ¬ sep ∈ rest := fun hx => h (List.mem_cons_of_mem c hx)
    simp only [splitChar, ih hrest]
    rw [if_neg (fun hx => hc hx)]

theorem getLastD_append_of_ne_nil {α : Type} (l1 : List α) {l2 : List α} (d : α)
    (h : l2 ≠ []) : (l1 ++ l2).getLastD d = l2.getLastD d := by
  induction l1 generalizing d with
  | nil => rfl
  | cons c rest ih =>
    rw [List.cons_append, List.getLastD_cons, ih c]
    rcases l2 with _ | ⟨x, xs⟩
    · exact absurd rfl h
    · rcases hlast : (x :: xs).getLast? with _ | y
      · rw [List.getLast?_eq_none_iff] at hlast
        exact absurd hlast (by simp)
      · simp [List.getLastD_eq_getLast?, hlast]

theorem baseName_joinPath (dir f : String) (hf : ¬ '/' ∈ f.data) :
    baseName (joinPath dir f) = f := by
  unfold baseName joinPath
  have hdata : (dir ++ "/" ++ f).data = dir.data ++ ('/' :: f.data) := by
    have h1 : (dir ++ "/" ++ f).data = (dir.data ++ ['/']) ++ f.data := rfl
    rw [h1, List.append_assoc]
    rfl
  rw [hdata, splitChar_append_sep, splitChar_no_sep '/' f.data hf,
    getLastD_append_of_ne_nil _ _ (by simp)]
  rfl

/-! ## Capture stage lemmas -/

theorem captureMultiple_cons (ok : String → Bool) (errOf : String → String)
    (dir t : String) (rest : List String) :
    captureMultiple ok errOf dir (t :: rest) =
      (if ok t then
        { timestamp := t, filePath := joinPath dir (formatTimestampForFilename t ++ ".png"),
          success := true, error := none }
       else
        { timestamp := t, filePath := joinPath dir (formatTimestampForFilename t ++ ".png"),
          success := false, error := some (errOf t) }) :: captureMultiple ok errOf dir rest :=
  rfl

theorem captureMultiple_success_files (ok : String → Bool) (errOf : String → String)
    (dir : String) (l : List String) :
    (((captureMultiple ok errOf dir l).filter (fun r => r.success)).map
        (fun r => baseName r.filePath)) =
      (l.filter ok).map
        (fun ts => baseName (joinPath dir (formatTimestampForFilename ts ++ ".png"))) := by
  induction l with
  | nil => rfl
  | cons t rest ih =>
    rw [captureMultiple_cons]
    cases h : ok t
    · rw [if_neg (by simp [h])]
      simp only [List.filter_cons, h]
      simpa using ih
    · rw [if_pos (by simp [h])]
      simp [List.filter_cons, h, ih]

theorem captureMultiple_failed_length (ok : String → Bool) (errOf : String → String)
    (dir : String) (l : List String) :
    ((captureMultiple ok errOf dir l).filter (fun r => !r.success)).length =
      (l.filter (fun ts => !ok ts)).length := by
  induction l with
  | nil => rfl
  | cons t rest ih =>
    rw [captureMultiple_cons]
    cases h : ok t
    · rw [if_neg (by simp [h])]
      simp only [List.filter_cons, h]
      simpa using ih
    · rw [if_pos (by simp [h])]
      simp only [List.filter_cons, h]
      simpa using ih

theorem runCaptureStage_disabled (ok : String → Bool) (errOf : String → String)
    (outDir : String) (scrTss : List String) (vs : VideoState) (s : PlaylistState)
    (vid now : String) :
    runCaptureStage false ok errOf outDir scrTss vs s vid now = (s, []) := by
  unfold runCaptureStage
  rw [if_neg (by simp)]

theorem runCaptureStage_noop (ws : Bool) (ok : String → Bool) (errOf : String → String)
    (outDir : String) (scrTss : List String) (vs : VideoState) (s : PlaylistState)
    (vid now : String)
    (hp : scrTss.filter
        (fun ts => !((vs.screenshots.files.map restoreTimestamp).contains ts)) = []) :
    runCaptureStage ws ok errOf outDir scrTss vs s vid now = (s, []) := by
  have hlen : (scrTss.filter
      (fun ts => !((vs.screenshots.files.map restoreTimestamp).contains ts))).length = 0 := by
    rw [hp]
    rfl
  unfold runCaptureStage
  rw [if_neg (by rw [hlen]; simp)]

theorem runCaptureStage_run (ws : Bool) (ok : String → Bool) (errOf : String → String)
    (outDir : String) (scrTss : List String) (vs : VideoState) (s : PlaylistState)
    (vid now : String) (hws : ws = true)
    (hp : scrTss.filter (fun ts => !((vs.screenshots.files.map restoreTimestamp).contains ts)) ≠ []) :
    runCaptureStage ws ok errOf outDir scrTss vs s vid now =
      (if 0 < ((captureMultiple ok errOf (joinPath outDir "screenshots")
          (scrTss.filter (fun ts => !((vs.screenshots.files.map restoreTimestamp).contains ts)))).filter (fun r => !r.success)).length then
        (updateScreenshotStatus
          (updateScreenshotStatus s vid .in_progress vs.screenshots.files.length
            vs.screenshots.files none now)
          vid .failed
          (vs.screenshots.files ++
        ((captureMultiple ok errOf (joinPath outDir "screenshots")
          (scrTss.filter (fun ts => !((vs.screenshots.files.map restoreTimestamp).contains ts)))).filter (fun r => r.success)).map (fun r => baseName r.filePath)).length
          (vs.screenshots.files ++
        ((captureMultiple ok errOf (joinPath outDir "screenshots")
          (scrTss.filter (fun ts => !((vs.screenshots.files.map restoreTimestamp).contains ts)))).filter (fun r => r.success)).map (fun r => baseName r.filePath))
          (some (String.intercalate "; "
            (((captureMultiple ok errOf (joinPath outDir "screenshots")
          (scrTss.filter (fun ts => !((vs.screenshots.files.map restoreTimestamp).contains ts)))).filter (fun r => !r.success)).map (fun r => r.error.getD "")))) now,
         scrTss.filter (fun ts => !((vs.screenshots.files.map restoreTimestamp).contains ts)))
       else
        (updateScreenshotStatus
          (updateScreenshotStatus s vid .in_progress vs.screenshots.files.length
            vs.screenshots.files none now)
          vid .completed
          (vs.screenshots.files ++
        ((captureMultiple ok errOf (joinPath outDir "screenshots")
          (scrTss.filter (fun ts => !((vs.screenshots.files.map restoreTimestamp).contains ts)))).filter (fun r => r.success)).map (fun r => baseName r.filePath)).length
          (vs.screenshots.files ++
        ((captureMultiple ok errOf (joinPath outDir "screenshots")
          (scrTss.filter (fun ts => !((vs.screenshots.files.map restoreTimestamp).contains ts)))).filter (fun r => r.success)).map (fun r => baseName r.filePath))
          none now,
         scrTss.filter (fun ts => !((vs.screenshots.files.map restoreTimestamp).contains ts)))) := by
  subst hws
  have hlen : 0 < (scrTss.filter (fun ts => !((vs.screenshots.files.map restoreTimestamp).contains ts))).length :=
    List.length_pos.mpr hp
  unfold runCaptureStage
  rw [if_pos (by rw [Bool.true_and]; exact decide_eq_true hlen)]

/-! ## Per-item pipeline lemmas -/

theorem tryBody_eq_incomplete (env : VideoEnv) (ws : Bool) (dir now : String)
    (s : PlaylistState) (vid : String) (vs : VideoState)
    (h : vs.summary.status ≠ ProcessStatus.completed) :
    tryBody env ws dir now s vid vs =
      (match env.summarizeResult with
       | .error m => .error (m, updateSummaryStatus s vid .in_progress none none now)
       | .ok (tss, scrTss) =>
         match env.captureThrow with
         | some m =>
           .error (m, updateSummaryStatus
             (updateSummaryStatus s vid .in_progress none none now) vid .completed
             (some tss) none now)
         | none =>
           .ok (runCaptureStage ws env.captureOk env.captureErr dir scrTss vs
             (updateSummaryStatus (updateSummaryStatus s vid .in_progress none none now)
               vid .completed (some tss) none now) vid now).1) := by
  unfold tryBody
  rw [if_pos h]
  rcases hsr : env.summarizeResult with m | ⟨tss, scrTss⟩
  · rfl
  · rfl

theorem tryBody_eq_complete (env : VideoEnv) (ws : Bool) (dir now : String)
    (s : PlaylistState) (vid : String) (vs : VideoState)
    (h : vs.summary.status = ProcessStatus.completed) :
    tryBody env ws dir now s vid vs =
      (match env.captureThrow with
       | some m => .error (m, s)
       | none =>
         .ok (runCaptureStage ws env.captureOk env.captureErr dir
           (vs.summary.timestamps.getD []) vs s vid now).1) := by
  unfold tryBody
  rw [if_neg (by simp [h])]

theorem runCaptureStage_frame (ws : Bool) (ok : String → Bool) (errOf : String → String)
    (dir : String) (scrTss : List String) (vs : VideoState) (s : PlaylistState)
    (vid now j : String) (hj : j ≠ vid) :
    (runCaptureStage ws ok errOf dir scrTss vs s vid now).1.videos.lookup j =
      s.videos.lookup j := by
  cases ws with
  | false => rw [runCaptureStage_disabled]
  | true =>
    by_cases hp : scrTss.filter
        (fun ts => !((vs.screenshots.files.map restoreTimestamp).contains ts)) = []
    · rw [runCaptureStage_noop _ _ _ _ _ _ _ _ _ hp]
    · rw [runCaptureStage_run _ _ _ _ _ _ _ _ _ rfl hp]
      by_cases hfail : 0 < ((captureMultiple ok errOf (joinPath dir "screenshots")
          (scrTss.filter
            (fun ts => !((vs.screenshots.files.map restoreTimestamp).contains ts)))).filter
            (fun r => !r.success)).length
      · rw [if_pos hfail]
        exact (lookup_updateScreenshotStatus_ne _ vid _ _ _ _ now j hj).trans
          (lookup_updateScreenshotStatus_ne _ vid _ _ _ _ now j hj)
      · rw [if_neg hfail]
        exact (lookup_updateScreenshotStatus_ne _ vid _ _ _ _ now j hj).trans
          (lookup_updateScreenshotStatus_ne _ vid _ _ _ _ now j hj)

theorem tryBody_frame (env : VideoEnv) (ws : Bool) (dir now : String) (s : PlaylistState)
    (vid : String) (vs : VideoState) (j : String) (hj : j ≠ vid) :
    (∀ m sT, tryBody env ws dir now s vid vs = .error (m, sT) →
      sT.videos.lookup j = s.videos.lookup j) ∧
    (∀ sF, tryBody env ws dir now s vid vs = .ok sF →
      sF.videos.lookup j = s.videos.lookup j) := by
  by_cases h : vs.summary.status = ProcessStatus.completed
  · rw [tryBody_eq_complete env ws dir now s vid vs h]
    rcases hct : env.captureThrow with _ | m
    · constructor
      · intro m sT heq
        exact absurd heq (by simp)
      · intro sF heq
        have hF : sF = (runCaptureStage ws env.captureOk env.captureErr dir
            (vs.summary.timestamps.getD []) vs s vid now).1 := by
          injection heq with h2
          exact h2.symm
        rw [hF]
        exact runCaptureStage_frame ws env.captureOk env.captureErr dir _ vs s vid now j hj
    · constructor
      · intro m2 sT heq
        have h1 : m = m2 ∧ s = sT := by
          injection heq with h2
          exact ⟨congrArg Prod.fst h2, congrArg Prod.snd h2⟩
        rw [← h1.2]
      · intro sF heq
        exact absurd heq (by simp)
  · rw [tryBody_eq_incomplete env ws dir now s vid vs h]
    rcases hsr : env.summarizeResult with m | ⟨tss, scrTss⟩
    · constructor
      · intro m2 sT heq
        have h1 : m = m2 ∧ updateSummaryStatus s vid .in_progress none none now = sT := by
          injection heq with h2
          exact ⟨congrArg Prod.fst h2, congrArg Prod.snd h2⟩
        rw [← h1.2]
        exact lookup_updateSummaryStatus_ne s vid .in_progress none none now j hj
      · intro sF heq
        exact absurd heq (by simp)
    · rcases hct : env.captureThrow with _ | m
      · constructor
        · intro m sT heq
          exact absurd heq (by simp)
        · intro sF heq
          have hF : sF = (runCaptureStage ws env.captureOk env.captureErr dir scrTss vs
              (updateSummaryStatus (updateSummaryStatus s vid .in_progress none none now)
                vid .completed (some tss) none now) vid now).1 := by
            injection heq with h2
            exact h2.symm
          rw [hF]
          exact (runCaptureStage_frame ws env.captureOk env.captureErr dir scrTss vs _
              vid now j hj).trans
            ((lookup_updateSummaryStatus_ne _ vid .completed (some tss) none now j hj).trans
              (lookup_updateSummaryStatus_ne s vid .in_progress none none now j hj))
      · constructor
        · intro m2 sT heq
          have h1 : m = m2 ∧ updateSummaryStatus
              (updateSummaryStatus s vid .in_progress none none now) vid .completed
              (some tss) none now = sT := by
            injection heq with h2
            exact ⟨congrArg Prod.fst h2, congrArg Prod.snd h2⟩
          rw [← h1.2]
          exact (lookup_updateSummaryStatus_ne _ vid .completed (some tss) none now j
              hj).trans
            (lookup_updateSummaryStatus_ne s vid .in_progress none none now j hj)
        · intro sF heq
          exact absurd heq (by simp)

theorem processVideo_untracked (env : VideoEnv) (ws : Bool) (dir now : String)
    (s : PlaylistState) (vid : String) (h : s.videos.lookup vid = none) :
    processVideo env ws dir now s vid = s := by
  unfold processVideo
  rw [h]

theorem processVideo_ok (env : VideoEnv) (ws : Bool) (dir now : String)
    (s : PlaylistState) (vid : String) (vs : VideoState) (sF : PlaylistState)
    (hvs : s.videos.lookup vid = some vs)
    (htry : tryBody env ws dir now s vid vs = .ok sF) :
    processVideo env ws dir now s vid = sF := by
  unfold processVideo
  rw [hvs]
  show (match tryBody env ws dir now s vid vs with
        | .ok sFinal => sFinal
        | .error (m, sAtThrow) =>
          match sAtThrow.videos.lookup vid with
          | none => sAtThrow
          | some cvs =>
            if cvs.summary.status ≠ ProcessStatus.completed then
              updateSummaryStatus sAtThrow vid .failed none (some m) now
            else
              updateScreenshotStatus sAtThrow vid .failed cvs.screenshots.completed
                cvs.screenshots.files (some m) now) = sF
  rw [htry]

theorem processVideo_catch (env : VideoEnv) (ws : Bool) (dir now : String)
    (s : PlaylistState) (vid : String) (vs : VideoState) (m : String) (sT : PlaylistState)
    (hvs : s.videos.lookup vid = some vs)
    (htry : tryBody env ws dir now s vid vs = .error (m, sT)) :
    processVideo env ws dir now s vid =
      (match sT.videos.lookup vid with
       | none => sT
       | some cvs =>
         if cvs.summary.status ≠ ProcessStatus.completed then
           updateSummaryStatus sT vid .failed none (some m) now
         else
           updateScreenshotStatus sT vid .failed cvs.screenshots.completed
             cvs.screenshots.files (some m) now) := by
  unfold processVideo
  rw [hvs]
  show (match tryBody env ws dir now s vid vs with
        | .ok sFinal => sFinal
        | .error (m, sAtThrow) =>
          match sAtThrow.videos.lookup vid with
          | none => sAtThrow
          | some cvs =>
            if cvs.summary.status ≠ ProcessStatus.completed then
              updateSummaryStatus sAtThrow vid .failed none (some m) now
            else
              updateScreenshotStatus sAtThrow vid .failed cvs.screenshots.completed
                cvs.screenshots.files (some m) now) = _
  rw [htry]

theorem processVideo_frame (env : VideoEnv) (ws : Bool) (dir now : String)
    (s : PlaylistState) (vid j : String) (hj : j ≠ vid) :
    (processVideo env ws dir now s vid).videos.lookup j = s.videos.lookup j := by
  rcases hvs : s.videos.lookup vid with _ | vs
  · rw [processVideo_untracked env ws dir now s vid hvs]
  · rcases htry : tryBody env ws dir now s vid vs with ⟨m, sT⟩ | sF
    · rw [processVideo_catch env ws dir now s vid vs m sT hvs htry]
      have hframe := (tryBody_frame env ws dir now s vid vs j hj).1 m sT htry
      rcases hcvs : sT.videos.lookup vid with _ | cvs
      · exact hframe
      · show (if cvs.summary.status ≠ ProcessStatus.completed then
            updateSummaryStatus sT vid .failed none (some m) now
          else
            updateScreenshotStatus sT vid .failed cvs.screenshots.completed
              cvs.screenshots.files (some m) now).videos.lookup j = s.videos.lookup j
        by_cases hst : cvs.summary.status ≠ ProcessStatus.completed
        · rw [if_pos hst]
          exact (lookup_updateSummaryStatus_ne sT vid .failed none (some m) now j hj).trans
            hframe
        · rw [if_neg hst]
          exact (lookup_updateScreenshotStatus_ne sT vid .failed cvs.screenshots.completed
            cvs.screenshots.files (some m) now j hj).trans hframe
    · rw [processVideo_ok env ws dir now s vid vs sF hvs htry]
      exact (tryBody_frame env ws dir now s vid vs j hj).2 sF htry

theorem runPending_cons (envOf : String → VideoEnv) (ws : Bool) (dirOf : String → String)
    (now : String) (s : PlaylistState) (vid : String) (rest : List String) :
    runPending envOf ws dirOf now s (vid :: rest) =
      runPending envOf ws dirOf now (processVideo (envOf vid) ws (dirOf vid) now s vid)
        rest := rfl

theorem runPending_append (envOf : String → VideoEnv) (ws : Bool) (dirOf : String → String)
    (now : String) :
    ∀ (l1 l2 : List String) (s : PlaylistState),
      runPending envOf ws dirOf now s (l1 ++ l2) =
        runPending envOf ws dirOf now (runPending envOf ws dirOf now s l1) l2 := by
  intro l1
  induction l1 with
  | nil => intro l2 s; rfl
  | cons v rest ih =>
    intro l2 s
    rw [List.cons_append, runPending_cons, runPending_cons]
    exact ih l2 _

theorem runPending_frame (envOf : String → VideoEnv) (ws : Bool) (dirOf : String → String)
    (now : String) :
    ∀ (ids : List String) (s : PlaylistState) (j : String), j ∉ ids →
      (runPending envOf ws dirOf now s ids).videos.lookup j = s.videos.lookup j := by
  intro ids
  induction ids with
  | nil => intro s j _; rfl
  | cons v rest ih =>
    intro s j hj
    rw [runPending_cons]
    have hjv : j ≠ v := fun h => hj (h ▸ List.mem_cons_self v rest)
    have hjr : j ∉ rest := fun h => hj (List.mem_cons_of_mem v h)
    rw [ih _ j hjr]
    exact processVideo_frame (envOf v) ws (dirOf v) now s v j hjv

/-! ## Claim theorems -/

theorem addNewVideos_eq (s : PlaylistState) (vl : List (String × String)) (now : String) :
    addNewVideos s vl now =
      (if 0 < (addVideosLoop s.videos.length s.videos [] vl).2.length then
        (save now { s with videos := (addVideosLoop s.videos.length s.videos [] vl).1,
                           totalVideos := (addVideosLoop s.videos.length s.videos [] vl).1.length },
         (addVideosLoop s.videos.length s.videos [] vl).2)
       else
        ({ s with videos := (addVideosLoop s.videos.length s.videos [] vl).1 },
         (addVideosLoop s.videos.length s.videos [] vl).2)) := rfl

/-- Claim C2: getStats is a strict partition — every tracked item falls into exactly one
of the four non-total buckets, and the four bucket counts sum to the reported total, on
any document satisfying the data-model invariant that the declared item count equals the
number of tracked entries. -/
theorem claim_C2_stats_partition (s : PlaylistState)
    (h : s.totalVideos = s.videos.length) :
    (∀ v : VideoState,
      (decide (classifyVideo s.config.withScreenshots v = .completedB)).toNat +
        (decide (classifyVideo s.config.withScreenshots v = .inProgressB)).toNat +
        (decide (classifyVideo s.config.withScreenshots v = .failedB)).toNat +
        (decide (classifyVideo s.config.withScreenshots v = .pendingB)).toNat = 1) ∧
    (getStats s).completed + (getStats s).inProgress + (getStats s).failed +
      (getStats s).pending = (getStats s).total := by
  constructor
  · intro v
    rcases hc : classifyVideo s.config.withScreenshots v <;> simp [hc]
  · have hcount := countP_classify_partition s.config.withScreenshots (s.videos.map Prod.snd)
    simp only [getStats]
    rw [h, show s.videos.length = (s.videos.map Prod.snd).length from
      (List.length_map _ _).symm]
    exact hcount

theorem claim_C2_witness :
    Ex.tripleState.totalVideos = Ex.tripleState.videos.length ∧
    ((∀ v : VideoState,
      (decide (classifyVideo Ex.tripleState.config.withScreenshots v = .completedB)).toNat +
        (decide (classifyVideo Ex.tripleState.config.withScreenshots v = .inProgressB)).toNat +
        (decide (classifyVideo Ex.tripleState.config.withScreenshots v = .failedB)).toNat +
        (decide (classifyVideo Ex.tripleState.config.withScreenshots v = .pendingB)).toNat
          = 1) ∧
    (getStats Ex.tripleState).completed + (getStats Ex.tripleState).inProgress +
        (getStats Ex.tripleState).failed + (getStats Ex.tripleState).pending =
      (getStats Ex.tripleState).total) :=
  ⟨rfl, claim_C2_stats_partition Ex.tripleState rfl⟩

/-- Claim C3 counterexample: a document whose item has capture total already seeded to 5
is updated with status in_progress and a one-element timestamp list; contrary to the
claim, the total is overwritten to 1 even though the status is not completed and the
total was already set. -/
theorem claim_C3_counterexample :
    (Ex.seededState.videos.lookup "D").map
        (fun v => (v.summary.status, v.screenshots.total)) =
      some (ProcessStatus.pending, 5) ∧
    ((updateSummaryStatus Ex.seededState "D" .in_progress (some ["00:01:00"]) none
        "t1").videos.lookup "D").map (fun v => v.screenshots.total) = some 1 :=
  ⟨rfl, rfl⟩

/-- Claim C3 (amended): updateSummaryStatus replaces the summarize sub-state with one
built from its arguments, and seeds capture total to the length of the timestamp list
whenever timestamps are given — for any status and even when a total is already set;
when no timestamps are given the total is unchanged, and the call is a no-op for an
untracked id. -/
theorem claim_C3_update_summary_semantics :
    (∀ (s : PlaylistState) (vid : String) (st : ProcessStatus)
       (tss : Option (List String)) (err : Option String) (now : String) (vs : VideoState),
       s.videos.lookup vid = some vs →
       (updateSummaryStatus s vid st tss err now).videos.lookup vid =
         some { vs with
                summary := { status := st
                             completedAt := if st = .completed then some now else none
                             timestamps := tss
                             error := err }
                screenshots := { vs.screenshots with
                                 total := match tss with
                                          | some l => l.length
                                          | none => vs.screenshots.total } }) ∧
    (∀ (s : PlaylistState) (vid : String) (st : ProcessStatus)
       (tss : Option (List String)) (err : Option String) (now : String),
       s.videos.lookup vid = none → updateSummaryStatus s vid st tss err now = s) :=
  ⟨fun s vid st tss err now vs hvs =>
      lookup_updateSummaryStatus_self s vid st tss err now vs hvs,
   fun s vid st tss err now h => updateSummaryStatus_untracked s vid st tss err now h⟩

theorem claim_C3_witness :
    Ex.seededState.videos.lookup "D" = some Ex.seededVS ∧
    (updateSummaryStatus Ex.seededState "D" .in_progress (some ["00:01:00"]) none
        "t1").videos.lookup "D" =
      some { Ex.seededVS with
             summary := { status := .in_progress
                          completedAt := none
                          timestamps := some ["00:01:00"]
                          error := none }
             screenshots := { Ex.seededVS.screenshots with total := 1 } } :=
  ⟨rfl, claim_C3_update_summary_semantics.1 Ex.seededState "D" .in_progress
    (some ["00:01:00"]) none "t1" Ex.seededVS rfl⟩

/-- Claim C4: reconciliation appends new records at the end and leaves every
already-tracked record untouched — an id tracked before reconciling still maps to the
identical record afterwards, and every appended record has an id that was absent. -/
theorem claim_C4_reconcile_preserves_existing (s : PlaylistState)
    (vl : List (String × String)) (now : String) :
    ∃ added : List (String × VideoState),
      (addNewVideos s vl now).1.videos = s.videos ++ added ∧
      (∀ p ∈ added, s.videos.lookup p.1 = none) ∧
      (∀ j v, s.videos.lookup j = some v →
        (addNewVideos s vl now).1.videos.lookup j = some v) := by
  obtain ⟨added, h1, h2, h3, h4⟩ := addVideosLoop_spec s.videos.length vl s.videos []
  refine ⟨added, ?_, h4, ?_⟩
  · rw [addNewVideos_videos]
    exact h1
  · intro j v hjv
    rw [addNewVideos_videos, h1]
    exact lookup_append_some added hjv

theorem claim_C4_witness :
    ∃ added : List (String × VideoState),
      (addNewVideos Ex.twoState [("a", "A"), ("c", "C item")] "t1").1.videos =
        Ex.twoState.videos ++ added ∧
      (∀ p ∈ added, Ex.twoState.videos.lookup p.1 = none) ∧
      (∀ j v, Ex.twoState.videos.lookup j = some v →
        (addNewVideos Ex.twoState [("a", "A"), ("c", "C item")] "t1").1.videos.lookup j =
          some v) :=
  claim_C4_reconcile_preserves_existing Ex.twoState [("a", "A"), ("c", "C item")] "t1"

/-- Claim C7 counterexample: with captures disabled by configuration, an item whose
capture stage is failed while its summarize stage is completed is treated as done and
does not appear in getPendingVideos, contrary to the claim that an item with either
stage failed is always returned. -/
theorem claim_C7_counterexample :
    (Ex.disabledState.videos.lookup "E").map (fun v => v.screenshots.status) =
      some ProcessStatus.failed ∧
    Ex.disabledState.config.withScreenshots = false ∧
    getPendingVideos Ex.disabledState = [] :=
  ⟨rfl, rfl, rfl⟩

/-- Claim C7 (amended): getPendingVideos returns exactly the ids of the entries that are
not done — done meaning summarize completed and (captures disabled by configuration or
capture completed) — in tracked order; an item with summarize in_progress or summarize
failed is always in the list, and an item with capture failed is in the list whenever
captures are enabled (with captures disabled, a summarize-completed item counts as done
regardless of its capture state). -/
theorem claim_C7_pending_iff_not_done (s : PlaylistState) :
    getPendingVideos s =
      (s.videos.filter (fun p => !specDone s.config.withScreenshots p.2)).map Prod.fst ∧
    (∀ vid vs, (vid, vs) ∈ s.videos →
      (vs.summary.status = .in_progress → vid ∈ getPendingVideos s) ∧
      (vs.summary.status = .failed → vid ∈ getPendingVideos s) ∧
      (vs.screenshots.status = .failed → s.config.withScreenshots = true →
        vid ∈ getPendingVideos s)) := by
  constructor
  · rfl
  · intro vid vs hmem
    refine ⟨?_, ?_, ?_⟩
    · intro hst
      unfold getPendingVideos
      rw [List.mem_map]
      refine ⟨(vid, vs), ?_, rfl⟩
      rw [List.mem_filter]
      exact ⟨hmem, by simp [hst]⟩
    · intro hst
      unfold getPendingVideos
      rw [List.mem_map]
      refine ⟨(vid, vs), ?_, rfl⟩
      rw [List.mem_filter]
      exact ⟨hmem, by simp [hst]⟩
    · intro hst hws
      unfold getPendingVideos
      rw [List.mem_map]
      refine ⟨(vid, vs), ?_, rfl⟩
      rw [List.mem_filter]
      exact ⟨hmem, by simp [hst, hws]⟩

theorem claim_C7_witness :
    ("B", Ex.failedVS) ∈ Ex.tripleState.videos ∧
    Ex.failedVS.summary.status = .failed ∧
    "B" ∈ getPendingVideos Ex.tripleState ∧
    getPendingVideos Ex.tripleState = ["B", "C"] :=
  ⟨by decide, rfl,
   ((claim_C7_pending_iff_not_done Ex.tripleState).2 "B" Ex.failedVS (by decide)).2.1 rfl,
   rfl⟩

/-- Claim C8: reconciliation is idempotent — a second call with the same input list adds
nothing, returns the empty id list, and leaves the document (its updatedAt timestamp
included) exactly as it was, performing no write. -/
theorem claim_C8_reconcile_idempotent (s : PlaylistState) (vl : List (String × String))
    (now now2 : String) :
    addNewVideos (addNewVideos s vl now).1 vl now2 = ((addNewVideos s vl now).1, []) := by
  have hcov : ∀ v ∈ vl, ((addNewVideos s vl now).1.videos.lookup v.1).isSome := by
    intro v hv
    rw [addNewVideos_videos]
    exact addVideosLoop_covers s.videos.length vl s.videos [] v hv
  have hloop := addVideosLoop_noop (addNewVideos s vl now).1.videos.length vl
    (addNewVideos s vl now).1.videos [] hcov
  rw [addNewVideos_eq _ vl now2, hloop]
  rw [if_neg (by simp)]

theorem claim_C8_witness :
    addNewVideos (addNewVideos Ex.twoState [("a", "A"), ("c", "C item")] "t1").1
        [("a", "A"), ("c", "C item")] "t2" =
      ((addNewVideos Ex.twoState [("a", "A"), ("c", "C item")] "t1").1, []) :=
  claim_C8_reconcile_idempotent Ex.twoState [("a", "A"), ("c", "C item")] "t1" "t2"

/-- Claim C10 counterexample: the round trip can fail for a timestamp with no dash —
the string made of a zero, a dot, the letters p n g and a zero contains no dash, yet
stripping the first ".png" occurrence hits the middle of the name, so the round trip
does not return the original string. -/
theorem claim_C10_counterexample :
    ¬ '-' ∈ ("0.png0" : String).data ∧
    restoreTimestamp (formatTimestampForFilename "0.png0" ++ ".png") ≠ "0.png0" :=
  ⟨by decide, by decide⟩

/-- Claim C10 (amended): for every timestamp containing no dash and no ".png"
occurrence, inverting the filename rule recovers the timestamp exactly; for a timestamp
containing a dash the round trip never holds. -/
theorem claim_C10_roundtrip :
    (∀ ts : String, ¬ '-' ∈ ts.data → hasSub pngSuffix ts.data = false →
      restoreTimestamp (formatTimestampForFilename ts ++ ".png") = ts) ∧
    (∀ ts : String, '-' ∈ ts.data →
      restoreTimestamp (formatTimestampForFilename ts ++ ".png") ≠ ts) := by
  constructor
  · exact restore_format_roundtrip
  · intro ts hd heq
    have hnd := no_dash_after_restore (formatTimestampForFilename ts ++ ".png")
    rw [heq] at hnd
    exact hnd hd

theorem claim_C10_witness :
    (¬ '-' ∈ ("00:01:00" : String).data) ∧
    hasSub pngSuffix ("00:01:00" : String).data = false ∧
    restoreTimestamp (formatTimestampForFilename "00:01:00" ++ ".png") = "00:01:00" ∧
    ('-' ∈ ("00-01-00" : String).data) ∧
    restoreTimestamp (formatTimestampForFilename "00-01-00" ++ ".png") ≠ "00-01-00" :=
  ⟨by decide, by decide,
   claim_C10_roundtrip.1 "00:01:00" (by decide) (by decide),
   by decide,
   claim_C10_roundtrip.2 "00-01-00" (by decide)⟩

/-- Claim C9: for each incoming item not already tracked, reconciliation appends a fresh
record with both stages pending, carrying the next sequential index — continuing from
max(existing indices) + 1, which under the data-model invariant that existing entries
hold indices 1..n is n + k + 1 for the k-th added record — never reusing or renumbering
an existing slot; afterwards the declared item count equals the number of entries. -/
theorem claim_C9_reconcile_appends_sequential (s : PlaylistState)
    (vl : List (String × String)) (now : String)
    (hTot : s.totalVideos = s.videos.length)
    (hIdx : ∀ p (hp : p < s.videos.length),
      ∃ t, ((s.videos.get ⟨p, hp⟩).2).outputDir = mkOutputDir (p + 1) t) :
    ∃ added : List (String × VideoState),
      (addNewVideos s vl now).1.videos = s.videos ++ added ∧
      (∀ k (hk : k < added.length),
        (added.get ⟨k, hk⟩).2.summary = { status := .pending } ∧
        (added.get ⟨k, hk⟩).2.screenshots =
          { status := .pending, total := 0, completed := 0, files := [] } ∧
        (added.get ⟨k, hk⟩).2.outputDir =
          mkOutputDir (s.videos.length + k + 1) ((added.get ⟨k, hk⟩).2.title) ∧
        (∀ p (hp : p < s.videos.length),
          ∃ t, ((s.videos.get ⟨p, hp⟩).2).outputDir = mkOutputDir (p + 1) t ∧
            p + 1 < s.videos.length + k + 1)) ∧
      (addNewVideos s vl now).1.totalVideos = (addNewVideos s vl now).1.videos.length := by
  obtain ⟨added, h1, h2, h3, h4⟩ := addVideosLoop_spec s.videos.length vl s.videos []
  refine ⟨added, ?_, ?_, ?_⟩
  · rw [addNewVideos_videos]
    exact h1
  · intro k hk
    have hfresh := h3 k hk
    have harith : s.videos.length + ([] : List String).length + k + 1 =
        s.videos.length + k + 1 := by simp
    rw [harith] at hfresh
    refine ⟨?_, ?_, ?_, ?_⟩
    · rw [hfresh]
      rfl
    · rw [hfresh]
      rfl
    · rw [hfresh]
      rfl
    · intro p hp
      obtain ⟨t, ht⟩ := hIdx p hp
      exact ⟨t, ht, by omega⟩
  · rw [addNewVideos_eq]
    by_cases hpos : 0 < (addVideosLoop s.videos.length s.videos [] vl).2.length
    · rw [if_pos hpos]
      rfl
    · rw [if_neg hpos]
      have h2n : (addVideosLoop s.videos.length s.videos [] vl).2 = [] :=
        List.eq_nil_of_length_eq_zero (Nat.eq_zero_of_not_pos hpos)
      rw [h2n] at h2
      have hadded : added = [] := by
        have hmap : added.map Prod.fst = [] := by simpa using h2.symm
        exact List.map_eq_nil_iff.mp hmap
      rw [hadded, List.append_nil] at h1
      show s.totalVideos = (addVideosLoop s.videos.length s.videos [] vl).1.length
      rw [h1, hTot]

theorem claim_C9_witness :
    Ex.twoState.totalVideos = Ex.twoState.videos.length ∧
    (∃ added : List (String × VideoState),
      (addNewVideos Ex.twoState [("a", "A"), ("c", "C item")] "t1").1.videos =
        Ex.twoState.videos ++ added ∧
      (∀ k (hk : k < added.length),
        (added.get ⟨k, hk⟩).2.summary = { status := .pending } ∧
        (added.get ⟨k, hk⟩).2.screenshots =
          { status := .pending, total := 0, completed := 0, files := [] } ∧
        (added.get ⟨k, hk⟩).2.outputDir =
          mkOutputDir (Ex.twoState.videos.length + k + 1) ((added.get ⟨k, hk⟩).2.title) ∧
        (∀ p (hp : p < Ex.twoState.videos.length),
          ∃ t, ((Ex.twoState.videos.get ⟨p, hp⟩).2).outputDir = mkOutputDir (p + 1) t ∧
            p + 1 < Ex.twoState.videos.length + k + 1)) ∧
      (addNewVideos Ex.twoState [("a", "A"), ("c", "C item")] "t1").1.totalVideos =
        (addNewVideos Ex.twoState [("a", "A"), ("c", "C item")] "t1").1.videos.length) :=
  ⟨rfl,
   claim_C9_reconcile_appends_sequential Ex.twoState [("a", "A"), ("c", "C item")] "t1" rfl
    (by
      intro p hp
      have hp2 : p < 2 := hp
      interval_cases p
      · exact ⟨"A", rfl⟩
      · exact ⟨"B", rfl⟩)⟩

theorem mem_pending_iff (files declared : List String) (ts : String) :
    ts ∈ declared.filter (fun ts => !((files.map restoreTimestamp).contains ts)) ↔
      (ts ∈ declared ∧ ¬ ts ∈ files.map restoreTimestamp) := by
  rw [List.mem_filter]
  simp

theorem no_slash_fmt_png (ts : String) (h : ¬ '/' ∈ ts.data) :
    ¬ '/' ∈ (formatTimestampForFilename ts ++ ".png").data := by
  intro hmem
  have hdata : (formatTimestampForFilename ts ++ ".png").data =
      ts.data.map (fun c => if c = ':' then '-' else c) ++ pngSuffix := rfl
  rw [hdata] at hmem
  rcases List.mem_append.mp hmem with hm | hm
  · obtain ⟨c, hc, he⟩ := List.mem_map.mp hm
    by_cases h2 : c = ':'
    · rw [if_pos h2] at he
      exact absurd he (by decide)
    · rw [if_neg h2] at he
      exact h (he ▸ hc)
  · exact absurd hm (by decide)

theorem runCaptureStage_requested (ok : String → Bool) (errOf : String → String)
    (outDir : String) (scrTss : List String) (vs : VideoState) (s : PlaylistState)
    (vid now : String) :
    (runCaptureStage true ok errOf outDir scrTss vs s vid now).2 =
      scrTss.filter (fun ts => !((vs.screenshots.files.map restoreTimestamp).contains ts)) := by
  by_cases hp : scrTss.filter
      (fun ts => !((vs.screenshots.files.map restoreTimestamp).contains ts)) = []
  · rw [runCaptureStage_noop _ _ _ _ _ _ _ _ _ hp, hp]
  · rw [runCaptureStage_run _ _ _ _ _ _ _ _ _ rfl hp]
    by_cases hfail : 0 < ((captureMultiple ok errOf (joinPath outDir "screenshots")
        (scrTss.filter
          (fun ts => !((vs.screenshots.files.map restoreTimestamp).contains ts)))).filter
          (fun r => !r.success)).length
    · rw [if_pos hfail]
    · rw [if_neg hfail]

/-- The entry stored for the item after a non-empty capture run: status and error depend
on whether any requested capture failed, the count and the file list reflect the merge of
the existing files with the newly succeeded ones. -/
theorem runCaptureStage_lookup_run (ok : String → Bool) (errOf : String → String)
    (outDir : String) (scrTss : List String) (vs : VideoState) (s : PlaylistState)
    (vid now : String)
    (hvs : s.videos.lookup vid = some vs)
    (hp : scrTss.filter
      (fun ts => !((vs.screenshots.files.map restoreTimestamp).contains ts)) ≠ []) :
    (runCaptureStage true ok errOf outDir scrTss vs s vid now).1.videos.lookup vid =
      some { vs with
             screenshots :=
               { status :=
                   if 0 < ((captureMultiple ok errOf (joinPath outDir "screenshots")
                       (scrTss.filter
                         (fun ts =>
                           !((vs.screenshots.files.map restoreTimestamp).contains
                             ts)))).filter (fun r => !r.success)).length then
                     ProcessStatus.failed
                   else ProcessStatus.completed
                 total := vs.screenshots.total
                 completed :=
                   (vs.screenshots.files ++
                     (((captureMultiple ok errOf (joinPath outDir "screenshots")
                         (scrTss.filter
                           (fun ts =>
                             !((vs.screenshots.files.map restoreTimestamp).contains
                               ts)))).filter (fun r => r.success)).map
                       (fun r => baseName r.filePath))).length
                 files :=
                   vs.screenshots.files ++
                     (((captureMultiple ok errOf (joinPath outDir "screenshots")
                         (scrTss.filter
                           (fun ts =>
                             !((vs.screenshots.files.map restoreTimestamp).contains
                               ts)))).filter (fun r => r.success)).map
                       (fun r => baseName r.filePath))
                 error :=
                   if 0 < ((captureMultiple ok errOf (joinPath outDir "screenshots")
                       (scrTss.filter
                         (fun ts =>
                           !((vs.screenshots.files.map restoreTimestamp).contains
                             ts)))).filter (fun r => !r.success)).length then
                     some (String.intercalate "; "
                       (((captureMultiple ok errOf (joinPath outDir "screenshots")
                           (scrTss.filter
                             (fun ts =>
                               !((vs.screenshots.files.map restoreTimestamp).contains
                                 ts)))).filter (fun r => !r.success)).map
                         (fun r => r.error.getD "")))
                   else none } } := by
  have hvs1 := lookup_updateScreenshotStatus_self s vid .in_progress
    vs.screenshots.files.length vs.screenshots.files none now vs hvs
  rw [runCaptureStage_run _ _ _ _ _ _ _ _ _ rfl hp]
  by_cases hfail : 0 < ((captureMultiple ok errOf (joinPath outDir "screenshots")
      (scrTss.filter
        (fun ts => !((vs.screenshots.files.map restoreTimestamp).contains ts)))).filter
        (fun r => !r.success)).length
  · rw [if_pos hfail, if_pos hfail, if_pos hfail]
    exact lookup_updateScreenshotStatus_self _ vid _ _ _ _ now
      { vs with screenshots :=
          { status := .in_progress, total := vs.screenshots.total,
            completed := vs.screenshots.files.length, files := vs.screenshots.files,
            error := none } } hvs1
  · rw [if_neg hfail, if_neg hfail, if_neg hfail]
    exact lookup_updateScreenshotStatus_self _ vid _ _ _ _ now
      { vs with screenshots :=
          { status := .in_progress, total := vs.screenshots.total,
            completed := vs.screenshots.files.length, files := vs.screenshots.files,
            error := none } } hvs1

/-- Claim C1: when the capture stage runs for an item whose summarize stage declared a
timestamp list and whose capture stage already holds produced files, the executor
requests exactly the set difference — the declared timestamps minus those recovered by
inverting the filename rule on the existing files — and the file list it stores is
exactly the existing files followed by the newly succeeded files, duplicate-free, so the
produced list never shrinks across retries.  Timestamps are assumed dash-free,
slash-free and free of ".png" occurrences, which is what the inversion relies on. -/
theorem claim_C1_capture_set_difference (ok : String → Bool) (errOf : String → String)
    (outDir now : String) (declared : List String) (vs : VideoState) (s : PlaylistState)
    (vid : String)
    (hvs : s.videos.lookup vid = some vs)
    (hnd : declared.Nodup)
    (hgood : ∀ ts ∈ declared, ¬ '-' ∈ ts.data ∧ ¬ '/' ∈ ts.data ∧
      hasSub pngSuffix ts.data = false)
    (hfiles : vs.screenshots.files.Nodup) :
    (∀ ts, ts ∈ (runCaptureStage true ok errOf outDir declared vs s vid now).2 ↔
      (ts ∈ declared ∧ ¬ ts ∈ vs.screenshots.files.map restoreTimestamp)) ∧
    (∃ vs1,
      (runCaptureStage true ok errOf outDir declared vs s vid now).1.videos.lookup vid =
        some vs1 ∧
      vs1.screenshots.files =
        vs.screenshots.files ++
          (((runCaptureStage true ok errOf outDir declared vs s vid now).2.filter ok).map
            (fun ts => formatTimestampForFilename ts ++ ".png")) ∧
      vs1.screenshots.files.Nodup ∧
      (∀ f ∈ vs.screenshots.files, f ∈ vs1.screenshots.files)) := by
  constructor
  · intro ts
    rw [runCaptureStage_requested]
    exact mem_pending_iff vs.screenshots.files declared ts
  · rw [runCaptureStage_requested]
    have hNEW : (((captureMultiple ok errOf (joinPath outDir "screenshots")
        (declared.filter
          (fun ts => !((vs.screenshots.files.map restoreTimestamp).contains ts)))).filter
        (fun r => r.success)).map (fun r => baseName r.filePath)) =
        ((declared.filter
            (fun ts =>
              !((vs.screenshots.files.map restoreTimestamp).contains ts))).filter ok).map
          (fun ts => formatTimestampForFilename ts ++ ".png") := by
      rw [captureMultiple_success_files]
      refine List.map_congr_left ?_
      intro ts hts
      have htsd : ts ∈ declared := (List.mem_filter.mp (List.mem_filter.mp hts).1).1
      obtain ⟨_, hsl, _⟩ := hgood ts htsd
      exact baseName_joinPath _ _ (no_slash_fmt_png ts hsl)
    have hPnodup : (declared.filter
        (fun ts => !((vs.screenshots.files.map restoreTimestamp).contains ts))).Nodup :=
      hnd.filter _
    have hgoodP : ∀ ts ∈ declared.filter
        (fun ts => !((vs.screenshots.files.map restoreTimestamp).contains ts)),
        ¬ '-' ∈ ts.data ∧ ¬ '/' ∈ ts.data ∧ hasSub pngSuffix ts.data = false :=
      fun ts hts => hgood ts (List.mem_filter.mp hts).1
    by_cases hp : declared.filter
        (fun ts => !((vs.screenshots.files.map restoreTimestamp).contains ts)) = []
    · rw [runCaptureStage_noop _ _ _ _ _ _ _ _ _ hp]
      refine ⟨vs, hvs, ?_, hfiles, fun f hf => hf⟩
      rw [hp]
      simp
    · have hlook := runCaptureStage_lookup_run ok errOf outDir declared vs s vid now hvs hp
      refine ⟨_, hlook, ?_, ?_, ?_⟩
      · show vs.screenshots.files ++ _ = vs.screenshots.files ++ _
        rw [hNEW]
      · show (vs.screenshots.files ++ _).Nodup
        rw [hNEW]
        refine List.nodup_append.mpr ⟨hfiles, ?_, ?_⟩
        · refine (hPnodup.filter ok).map_on ?_
          intro a ha b hb hfn
          have hga := hgoodP a (List.mem_filter.mp ha).1
          have hgb := hgoodP b (List.mem_filter.mp hb).1
          have hdat : (formatTimestampForFilename a).data ++ pngSuffix =
              (formatTimestampForFilename b).data ++ pngSuffix := congrArg String.data hfn
          have hfmt : formatTimestampForFilename a = formatTimestampForFilename b :=
            congrArg String.mk (List.append_cancel_right hdat)
          exact format_timestamp_inj a b hga.1 hgb.1 hfmt
        · intro x hx1 hx2
          obtain ⟨ts, hts, hx⟩ := List.mem_map.mp hx2
          have htsP : ts ∈ declared.filter
              (fun ts => !((vs.screenshots.files.map restoreTimestamp).contains ts)) :=
            (List.mem_filter.mp hts).1
          have hg := hgoodP ts htsP
          have hrt : restoreTimestamp x = ts := by
            rw [← hx]
            exact restore_format_roundtrip ts hg.1 hg.2.2
          have hmem2 : ts ∈ vs.screenshots.files.map restoreTimestamp :=
            hrt ▸ List.mem_map_of_mem restoreTimestamp hx1
          exact ((mem_pending_iff vs.screenshots.files declared ts).mp htsP).2 hmem2
      · intro f hf
        show f ∈ vs.screenshots.files ++ _
        exact List.mem_append_left _ hf

theorem claim_C1_witness :
    Ex.mergeState.videos.lookup "M" = some Ex.mergeVS ∧
    (["00:01:00", "00:05:00", "00:10:00"] : List String).Nodup ∧
    ((∀ ts, ts ∈ (runCaptureStage true (fun _ => true) (fun _ => "e") "out"
        ["00:01:00", "00:05:00", "00:10:00"] Ex.mergeVS Ex.mergeState "M" "t1").2 ↔
      (ts ∈ (["00:01:00", "00:05:00", "00:10:00"] : List String) ∧
        ¬ ts ∈ Ex.mergeVS.screenshots.files.map restoreTimestamp)) ∧
    (∃ vs1,
      (runCaptureStage true (fun _ => true) (fun _ => "e") "out"
          ["00:01:00", "00:05:00", "00:10:00"] Ex.mergeVS Ex.mergeState "M"
          "t1").1.videos.lookup "M" = some vs1 ∧
      vs1.screenshots.files =
        Ex.mergeVS.screenshots.files ++
          (((runCaptureStage true (fun _ => true) (fun _ => "e") "out"
              ["00:01:00", "00:05:00", "00:10:00"] Ex.mergeVS Ex.mergeState "M"
              "t1").2.filter (fun _ => true)).map
            (fun ts => formatTimestampForFilename ts ++ ".png")) ∧
      vs1.screenshots.files.Nodup ∧
      (∀ f ∈ Ex.mergeVS.screenshots.files, f ∈ vs1.screenshots.files))) := by
  refine ⟨rfl, by decide, ?_⟩
  exact claim_C1_capture_set_difference (fun _ => true) (fun _ => "e") "out"
    "t1" ["00:01:00", "00:05:00", "00:10:00"] Ex.mergeVS Ex.mergeState "M" rfl (by decide)
    (by decide) (by decide)

/-- Claim C5 counterexample: when the remaining set is empty the capture step is skipped
entirely and the document is returned unchanged — the stage is NOT written completed; an
item whose capture stage is still pending stays pending. -/
theorem claim_C5_counterexample :
    runCaptureStage true (fun _ => true) (fun _ => "e") "out" ["00:10:00"] Ex.skipVS
        Ex.skipState "S" "t1" = (Ex.skipState, []) ∧
    (Ex.skipState.videos.lookup "S").map (fun v => v.screenshots.status) =
      some ProcessStatus.pending :=
  ⟨rfl, rfl⟩

/-- Claim C5 (amended): when the capture executor actually runs — captures enabled and a
non-empty remaining set — the final capture status is completed iff every requested
capture succeeded; if any requested capture failed (some or all) the final status is
failed, while the stored file list and completed count still include every capture that
succeeded in this run; an empty remaining set skips the stage, leaving the document
unchanged rather than writing completed. -/
theorem claim_C5_capture_final_status (ok : String → Bool) (errOf : String → String)
    (outDir now : String) (declared : List String) (vs : VideoState) (s : PlaylistState)
    (vid : String)
    (hvs : s.videos.lookup vid = some vs) :
    (declared.filter
        (fun ts => !((vs.screenshots.files.map restoreTimestamp).contains ts)) ≠ [] →
      ∃ vs1,
        (runCaptureStage true ok errOf outDir declared vs s vid now).1.videos.lookup vid =
          some vs1 ∧
        (vs1.screenshots.status = .completed ↔
          ∀ ts ∈ declared.filter
            (fun ts => !((vs.screenshots.files.map restoreTimestamp).contains ts)),
            ok ts = true) ∧
        ((∃ ts ∈ declared.filter
            (fun ts => !((vs.screenshots.files.map restoreTimestamp).contains ts)),
            ok ts = false) → vs1.screenshots.status = .failed) ∧
        vs1.screenshots.files =
          vs.screenshots.files ++
            (((captureMultiple ok errOf (joinPath outDir "screenshots")
                (declared.filter
                  (fun ts =>
                    !((vs.screenshots.files.map restoreTimestamp).contains ts)))).filter
                (fun r => r.success)).map (fun r => baseName r.filePath)) ∧
        vs1.screenshots.completed = vs1.screenshots.files.length ∧
        (∀ f ∈ vs.screenshots.files, f ∈ vs1.screenshots.files)) ∧
    (declared.filter
        (fun ts => !((vs.screenshots.files.map restoreTimestamp).contains ts)) = [] →
      runCaptureStage true ok errOf outDir declared vs s vid now = (s, [])) := by
  constructor
  · intro hp
    have hlook := runCaptureStage_lookup_run ok errOf outDir declared vs s vid now hvs hp
    refine ⟨_, hlook, ?_, ?_, rfl, rfl, ?_⟩
    · show (if 0 < ((captureMultiple ok errOf (joinPath outDir "screenshots")
          (declared.filter
            (fun ts => !((vs.screenshots.files.map restoreTimestamp).contains
              ts)))).filter (fun r => !r.success)).length then
          ProcessStatus.failed else ProcessStatus.completed) = ProcessStatus.completed ↔ _
      rw [captureMultiple_failed_length]
      by_cases hfail : 0 < ((declared.filter
          (fun ts => !((vs.screenshots.files.map restoreTimestamp).contains
            ts))).filter (fun ts => !ok ts)).length
      · rw [if_pos hfail]
        constructor
        · intro h
          exact absurd h (by decide)
        · intro hall
          obtain ⟨ts, hts⟩ := List.exists_mem_of_length_pos hfail
          have hm := List.mem_filter.mp hts
          have := hall ts hm.1
          rw [this] at hm
          exact absurd hm.2 (by decide)
      · rw [if_neg hfail]
        constructor
        · intro _ ts hts
          have hnil : (declared.filter
              (fun ts => !((vs.screenshots.files.map restoreTimestamp).contains
                ts))).filter (fun ts => !ok ts) = [] := by
            rcases hl : (declared.filter
                (fun ts => !((vs.screenshots.files.map restoreTimestamp).contains
                  ts))).filter (fun ts => !ok ts) with _ | ⟨x, xs⟩
            · rfl
            · exact absurd (by rw [hl]; simp) hfail
          have := List.filter_eq_nil_iff.mp hnil ts hts
          cases hok : ok ts
          · rw [hok] at this
            exact absurd (by decide) this
          · rfl
        · intro _
          rfl
    · intro hex
      obtain ⟨ts, hts, hfalse⟩ := hex
      show (if 0 < ((captureMultiple ok errOf (joinPath outDir "screenshots")
          (declared.filter
            (fun ts => !((vs.screenshots.files.map restoreTimestamp).contains
              ts)))).filter (fun r => !r.success)).length then
          ProcessStatus.failed else ProcessStatus.completed) = ProcessStatus.failed
      rw [captureMultiple_failed_length]
      have hmem : ts ∈ (declared.filter
          (fun ts => !((vs.screenshots.files.map restoreTimestamp).contains
            ts))).filter (fun ts => !ok ts) :=
        List.mem_filter.mpr ⟨hts, by rw [hfalse]; rfl⟩
      rw [if_pos (List.length_pos.mpr (fun hnil => by rw [hnil] at hmem; cases hmem))]
    · intro f hf
      show f ∈ vs.screenshots.files ++ _
      exact List.mem_append_left _ hf
  · intro hp
    exact runCaptureStage_noop _ _ _ _ _ _ _ _ _ hp

theorem claim_C5_witness :
    Ex.mergeState.videos.lookup "M" = some Ex.mergeVS ∧
    ((["00:01:00", "00:05:00", "00:10:00"] : List String).filter
        (fun ts =>
          !((Ex.mergeVS.screenshots.files.map restoreTimestamp).contains ts)) ≠ [] →
      ∃ vs1,
        (runCaptureStage true (fun ts => ts != "00:10:00") (fun _ => "boom") "out"
            ["00:01:00", "00:05:00", "00:10:00"] Ex.mergeVS Ex.mergeState "M"
            "t1").1.videos.lookup "M" = some vs1 ∧
        (vs1.screenshots.status = .completed ↔
          ∀ ts ∈ (["00:01:00", "00:05:00", "00:10:00"] : List String).filter
            (fun ts =>
              !((Ex.mergeVS.screenshots.files.map restoreTimestamp).contains ts)),
            (fun ts => ts != "00:10:00") ts = true) ∧
        ((∃ ts ∈ (["00:01:00", "00:05:00", "00:10:00"] : List String).filter
            (fun ts =>
              !((Ex.mergeVS.screenshots.files.map restoreTimestamp).contains ts)),
            (fun ts => ts != "00:10:00") ts = false) →
          vs1.screenshots.status = .failed) ∧
        vs1.screenshots.files =
          Ex.mergeVS.screenshots.files ++
            (((captureMultiple (fun ts => ts != "00:10:00") (fun _ => "boom")
                (joinPath "out" "screenshots")
                ((["00:01:00", "00:05:00", "00:10:00"] : List String).filter
                  (fun ts =>
                    !((Ex.mergeVS.screenshots.files.map restoreTimestamp).contains
                      ts)))).filter (fun r => r.success)).map
              (fun r => baseName r.filePath)) ∧
        vs1.screenshots.completed = vs1.screenshots.files.length ∧
        (∀ f ∈ Ex.mergeVS.screenshots.files, f ∈ vs1.screenshots.files)) ∧
    ((["00:01:00", "00:05:00", "00:10:00"] : List String).filter
        (fun ts =>
          !((Ex.mergeVS.screenshots.files.map restoreTimestamp).contains ts)) = [] →
      runCaptureStage true (fun ts => ts != "00:10:00") (fun _ => "boom") "out"
        ["00:01:00", "00:05:00", "00:10:00"] Ex.mergeVS Ex.mergeState "M" "t1" =
        (Ex.mergeState, [])) :=
  ⟨rfl, claim_C5_capture_final_status (fun ts => ts != "00:10:00") (fun _ => "boom")
    "out" "t1" ["00:01:00", "00:05:00", "00:10:00"] Ex.mergeVS Ex.mergeState "M" rfl⟩

/-- Claim C6: an exception raised while processing one item is caught at the boundary of that item
and recorded into the state of that same item through the active stage — summarize
when summarize is not yet completed, capture otherwise — marked failed with the error
message and, for the capture stage, preserving the stored count and file list; the
handler never touches the record of any other item, and the sequential scheduler neither
aborts nor skips: running a list of pending ids always processes a prefix and then
continues with the remainder, and ids outside the processed list are untouched, so the
run finishes and aggregate stats can be reported.  (The caller-supplied error callback
is an observational side effect outside the state model.) -/
theorem claim_C6_failure_isolated :
    (∀ (env : VideoEnv) (ws : Bool) (dir now : String) (s : PlaylistState) (vid : String)
       (vs : VideoState) (m : String) (sT : PlaylistState),
       s.videos.lookup vid = some vs →
       tryBody env ws dir now s vid vs = .error (m, sT) →
       (∀ j, j ≠ vid →
         (processVideo env ws dir now s vid).videos.lookup j = s.videos.lookup j) ∧
       (∀ cvs, sT.videos.lookup vid = some cvs →
         (cvs.summary.status ≠ .completed →
           (processVideo env ws dir now s vid).videos.lookup vid =
             some { cvs with
                    summary := { status := .failed, completedAt := none,
                                 timestamps := none, error := some m } }) ∧
         (cvs.summary.status = .completed →
           (processVideo env ws dir now s vid).videos.lookup vid =
             some { cvs with
                    screenshots := { status := .failed, total := cvs.screenshots.total,
                                     completed := cvs.screenshots.completed,
                                     files := cvs.screenshots.files,
                                     error := some m } }))) ∧
    (∀ (envOf : String → VideoEnv) (ws : Bool) (dirOf : String → String) (now : String)
       (s : PlaylistState) (l1 l2 : List String),
       runPending envOf ws dirOf now s (l1 ++ l2) =
         runPending envOf ws dirOf now (runPending envOf ws dirOf now s l1) l2) ∧
    (∀ (envOf : String → VideoEnv) (ws : Bool) (dirOf : String → String) (now : String)
       (s : PlaylistState) (ids : List String) (j : String), j ∉ ids →
       (runPending envOf ws dirOf now s ids).videos.lookup j = s.videos.lookup j) := by
  refine ⟨?_, ?_, ?_⟩
  · intro env ws dir now s vid vs m sT hvs htry
    have hcatch := processVideo_catch env ws dir now s vid vs m sT hvs htry
    constructor
    · intro j hj
      exact processVideo_frame env ws dir now s vid j hj
    · intro cvs hcvs
      rw [hcatch, hcvs]
      constructor
      · intro hne
        show (if cvs.summary.status ≠ ProcessStatus.completed then
            updateSummaryStatus sT vid .failed none (some m) now
          else
            updateScreenshotStatus sT vid .failed cvs.screenshots.completed
              cvs.screenshots.files (some m) now).videos.lookup vid = _
        rw [if_pos hne]
        exact lookup_updateSummaryStatus_self sT vid .failed none (some m) now cvs hcvs
      · intro heq
        show (if cvs.summary.status ≠ ProcessStatus.completed then
            updateSummaryStatus sT vid .failed none (some m) now
          else
            updateScreenshotStatus sT vid .failed cvs.screenshots.completed
              cvs.screenshots.files (some m) now).videos.lookup vid = _
        rw [if_neg (by simp [heq])]
        exact lookup_updateScreenshotStatus_self sT vid .failed cvs.screenshots.completed
          cvs.screenshots.files (some m) now cvs hcvs
  · intro envOf ws dirOf now s l1 l2
    exact runPending_append envOf ws dirOf now l1 l2 s
  · intro envOf ws dirOf now s ids j hj
    exact runPending_frame envOf ws dirOf now ids s j hj

theorem claim_C6_witness :
    Ex.twoState.videos.lookup "a" = some (freshVideoState 1 "A") ∧
    tryBody Ex.envBoom true "d" "t1" Ex.twoState "a" (freshVideoState 1 "A") =
      .error ("boom", updateSummaryStatus Ex.twoState "a" .in_progress none none "t1") ∧
    ((∀ j, j ≠ "a" →
      (processVideo Ex.envBoom true "d" "t1" Ex.twoState "a").videos.lookup j =
        Ex.twoState.videos.lookup j) ∧
     (∀ cvs, (updateSummaryStatus Ex.twoState "a" .in_progress none none
         "t1").videos.lookup "a" = some cvs →
       (cvs.summary.status ≠ .completed →
         (processVideo Ex.envBoom true "d" "t1" Ex.twoState "a").videos.lookup "a" =
           some { cvs with
                  summary := { status := .failed, completedAt := none,
                               timestamps := none, error := some "boom" } }) ∧
       (cvs.summary.status = .completed →
         (processVideo Ex.envBoom true "d" "t1" Ex.twoState "a").videos.lookup "a" =
           some { cvs with
                  screenshots := { status := .failed, total := cvs.screenshots.total,
                                   completed := cvs.screenshots.completed,
                                   files := cvs.screenshots.files,
                                   error := some "boom" } }))) ∧
    runPending (fun _ => Ex.envBoom) true (fun _ => "d") "t1" Ex.twoState
        (["a"] ++ ["b"]) =
      runPending (fun _ => Ex.envBoom) true (fun _ => "d") "t1"
        (runPending (fun _ => Ex.envBoom) true (fun _ => "d") "t1" Ex.twoState ["a"])
        ["b"] ∧
    ¬ "z" ∈ (["a", "b"] : List String) ∧
    (runPending (fun _ => Ex.envBoom) true (fun _ => "d") "t1" Ex.twoState
        ["a", "b"]).videos.lookup "z" = Ex.twoState.videos.lookup "z" :=
  ⟨rfl, rfl,
   claim_C6_failure_isolated.1 Ex.envBoom true "d" "t1" Ex.twoState "a"
     (freshVideoState 1 "A") "boom"
     (updateSummaryStatus Ex.twoState "a" .in_progress none none "t1") rfl rfl,
   claim_C6_failure_isolated.2.1 (fun _ => Ex.envBoom) true (fun _ => "d") "t1"
     Ex.twoState ["a"] ["b"],
   by decide,
   claim_C6_failure_isolated.2.2 (fun _ => Ex.envBoom) true (fun _ => "d") "t1"
     Ex.twoState ["a", "b"] "z" (by decide)⟩
